import Mathlib

/-!
Verification development for the open-nd-studio DXF import/export engine.

The repository's `src/src-tauri/src/main.rs` registers four host commands
(`save_file`, `load_file`, `export_dxf`, `import_dxf`); the engine behind
them (geometry model, DXF tokenizer, reader, writer, persistence adapter,
command facade) is specified in `spec.md` but its source file
(`commands.rs` and the modules it uses) is not part of the provided
sources.  All engine definitions below are therefore modelled from the
spec; the command registration list is taken from `main.rs`.

Numbers are modelled exactly with rationals; a parsed numeric value that
is NaN or an infinity is represented explicitly so the model can reject
non-finite input as the spec requires.
-/

/-- Modelled from the spec: a parsed double-precision value.  The spec
requires coordinate values to be finite ("no NaN/Infinity accepted from
input — reject and report"), so the parse result distinguishes finite
values (modelled exactly as rationals) from NaN and infinities. -/
inductive PNum where
  | fin (q : ℚ)
  | pnan
  | pinf
  deriving DecidableEq, Repr

def PNum.isFinite : PNum → Bool
  | .fin _ => true
  | _ => false

/-- Modelled from the spec: a DXF value is typed by convention
(string / integer / float) per the DXF group-code table. -/
inductive DxfVal where
  | str (s : String)
  | int (i : Int)
  | real (p : PNum)
  deriving DecidableEq, Repr

/-- Modelled from the spec: a DXF Token is a group-code (integer) paired
with a value typed by convention per the DXF group-code table. -/
structure Token where
  code : Int
  value : DxfVal
  deriving DecidableEq, Repr

/-- Expected value type of a group code. -/
inductive CodeType where
  | str
  | int
  | real
  deriving DecidableEq, Repr

/-- Modelled from the spec: classification of the value's expected type
from the group-code range (0–9 strings, 10–39/140–149 doubles,
60–79/170–179 integers, etc., per the standard group-code table). -/
def codeType (c : Int) : CodeType :=
  if 0 ≤ c ∧ c ≤ 9 then .str
  else if 10 ≤ c ∧ c ≤ 59 then .real
  else if 60 ≤ c ∧ c ≤ 79 then .int
  else if 90 ≤ c ∧ c ≤ 99 then .int
  else if 140 ≤ c ∧ c ≤ 149 then .real
  else if 170 ≤ c ∧ c ≤ 179 then .int
  else if 210 ≤ c ∧ c ≤ 239 then .real
  else if 270 ≤ c ∧ c ≤ 299 then .int
  else .str

/-- Digit value of a character, if it is a decimal digit. -/
def digitVal (c : Char) : Option Nat :=
  if c.isDigit then some (c.toNat - 48) else none

def parseNatAux : List Char → Nat → Option Nat
  | [], acc => some acc
  | c :: cs, acc =>
    match digitVal c with
    | some d => parseNatAux cs (acc * 10 + d)
    | none => none

/-- Parse a nonempty digit string as a natural number. -/
def parseNatDigits (s : List Char) : Option Nat :=
  if s.isEmpty then none else parseNatAux s 0

/-- Modelled from the spec: parse an integer value line (optional sign,
then decimal digits). -/
def parseIntChars : List Char → Option Int
  | '-' :: rest => (parseNatDigits rest).map (fun n => -(n : Int))
  | '+' :: rest => (parseNatDigits rest).map (fun n => (n : Int))
  | s => (parseNatDigits s).map (fun n => (n : Int))

/-- Fraction digits after the decimal point, as a rational in [0, 1). -/
def parseFracAux : List Char → ℚ → ℚ → Option ℚ
  | [], _, acc => some acc
  | c :: cs, scale, acc =>
    match digitVal c with
    | some d => parseFracAux cs (scale / 10) (acc + d * scale)
    | none => none

/-- Parse an unsigned decimal number: digits, optionally followed by a
point and further digits.  At least one digit must be present overall. -/
def parseUnsigned (s : List Char) : Option ℚ :=
  match s.span Char.isDigit with
  | (intPart, rest) =>
    match rest with
    | [] =>
      (parseNatDigits intPart).map (fun n => (n : ℚ))
    | '.' :: fracPart =>
      if intPart.isEmpty ∧ fracPart.isEmpty then none
      else
        match parseFracAux fracPart (1/10) 0 with
        | none => none
        | some f =>
          match parseNatDigits intPart with
          | some n => some ((n : ℚ) + f)
          | none => if intPart.isEmpty then some f else none
    | _ => none

/-- Modelled from the spec: parse a double value line.  Finite decimals
are represented exactly; the spellings accepted by the host language's
float parser for NaN and infinity are recognized so the model can reject
them downstream. -/
def parseDoubleChars (s : List Char) : Option PNum :=
  let low := s.map Char.toLower
  if low = ['n', 'a', 'n'] then some .pnan
  else if low = ['i', 'n', 'f'] ∨ low = ['i', 'n', 'f', 'i', 'n', 'i', 't', 'y'] then some .pinf
  else
    match s with
    | '-' :: rest =>
      if (rest.map Char.toLower) = ['i', 'n', 'f'] ∨ (rest.map Char.toLower) = ['i', 'n', 'f', 'i', 'n', 'i', 't', 'y'] then some .pinf
      else (parseUnsigned rest).map (fun q => .fin (-q))
    | '+' :: rest => (parseUnsigned rest).map .fin
    | _ => (parseUnsigned s).map .fin

/-- Trailing-whitespace trim (spaces, tabs, carriage returns). -/
def isTrimmable (c : Char) : Bool :=
  c = ' ' ∨ c = '\t' ∨ c = '\r'

def rtrimChars (s : List Char) : List Char :=
  (s.reverse.dropWhile isTrimmable).reverse

def trimChars (s : List Char) : List Char :=
  (rtrimChars s).dropWhile isTrimmable

/-- Modelled from the spec: `TokenizeError` kinds `UnpairedGroupCode`,
`MalformedNumber`, `UnexpectedEof`. -/
inductive TokenizeError where
  | UnpairedGroupCode
  | MalformedNumber
  | UnexpectedEof
  deriving DecidableEq, Repr

/-- Modelled from the spec: turn one group-code line / value line pair
into a Token — trim trailing whitespace / line-ending variants and
classify the value's expected type from the group-code range.  Fails at
the point of failure without recovery. -/
def pairToken (c v : List Char) : Except TokenizeError Token :=
  match parseIntChars (trimChars c) with
  | none => .error .UnpairedGroupCode
  | some code =>
    match codeType code with
    | .str => .ok ⟨code, .str ⟨rtrimChars v⟩⟩
    | .int =>
      match parseIntChars (trimChars v) with
      | some i => .ok ⟨code, .int i⟩
      | none => .error .MalformedNumber
    | .real =>
      match parseDoubleChars (trimChars v) with
      | some p => .ok ⟨code, .real p⟩
      | none => .error .MalformedNumber

def tokenizePairs : List (List Char) → Except TokenizeError (List Token)
  | [] => .ok []
  | [_] => .error .UnexpectedEof
  | c :: v :: rest =>
    match pairToken c v with
    | .error e => .error e
    | .ok t =>
      match tokenizePairs rest with
      | .error e => .error e
      | .ok ts => .ok (t :: ts)

/-- Split raw text into lines the way the host language's `lines()`
iterator does: split on newline, drop a trailing empty segment produced
by a final newline (carriage returns are trimmed later). -/
def splitLinesAux : List Char → List Char → List (List Char)
  | [], acc => [acc.reverse]
  | '\n' :: rest, acc => acc.reverse :: splitLinesAux rest []
  | c :: rest, acc => splitLinesAux rest (c :: acc)

def splitLines (s : List Char) : List (List Char) :=
  match splitLinesAux s [] with
  | ls =>
    match ls.reverse with
    | [] :: front => front.reverse
    | _ => ls

/-- Modelled from the spec: tokenize a raw DXF character stream. -/
def tokenizeText (s : String) : Except TokenizeError (List Token) :=
  tokenizePairs (splitLines s.data)

/-! ## Geometry Model (modelled from spec §3, §4.1) -/

/-- A 2D point with exact rational coordinates (finite by construction;
the constructors below reject non-finite parsed input). -/
structure Pt where
  x : ℚ
  y : ℚ
  deriving DecidableEq, Repr

/-- Modelled from the spec: a Layer has a name, color index, visibility
flag and line-type name. -/
structure Layer where
  name : String
  colorIndex : Int
  visible : Bool
  lineType : String
  deriving DecidableEq, Repr

/-- Modelled from the spec: an Entity is a tagged variant over
{Line, Circle, Arc, Polyline, Text, Insert}; each variant carries an
owning layer name and its geometric payload (angles in degrees). -/
inductive Entity where
  | line (layer : String) (p1 p2 : Pt)
  | circle (layer : String) (center : Pt) (radius : ℚ)
  | arc (layer : String) (center : Pt) (radius : ℚ) (startAngle endAngle : ℚ)
  | polyline (layer : String) (vertices : List Pt)
  | text (layer : String) (insertion : Pt) (height : ℚ) (rotation : ℚ) (content : String)
  | insert (layer : String) (blockName : String) (position : Pt) (scale : ℚ) (rotation : ℚ)
  deriving DecidableEq, Repr

/-- Owning layer name of an entity. -/
def entLayer : Entity → String
  | .line l _ _ => l
  | .circle l _ _ => l
  | .arc l _ _ _ _ => l
  | .polyline l _ => l
  | .text l _ _ _ _ => l
  | .insert l _ _ _ _ => l

/-- Modelled from the spec: a Block is a named reusable group of
Entities with a base point, referenced by Insert entities by name. -/
structure Block where
  name : String
  basePoint : Pt
  entities : List Entity
  deriving DecidableEq, Repr

/-- Modelled from the spec: a Drawing owns layers, blocks and entities. -/
structure Drawing where
  layers : List Layer
  blocks : List Block
  entities : List Entity
  deriving DecidableEq, Repr

def layerNames (d : Drawing) : List String := d.layers.map Layer.name

def blockNames (d : Drawing) : List String := d.blocks.map Block.name

/-- All entities of a drawing: top level entities plus those inside
block definitions. -/
def allEntities (d : Drawing) : List Entity :=
  d.entities ++ (d.blocks.map Block.entities).flatten

/-- Per-entity geometric invariants (spec §3): every Polyline has at
least one vertex and every Arc has start angle distinct from end angle.
Coordinates are rationals, hence finite by construction. -/
def entGeomOk : Entity → Bool
  | .polyline _ vs => !vs.isEmpty
  | .arc _ _ _ sa ea => sa != ea
  | _ => true

/-- Reference invariants: the entity's layer exists, and an Insert's
block exists. -/
def entRefOk (lns bns : List String) : Entity → Bool
  | .insert l b _ _ _ => lns.contains l && bns.contains b
  | e => lns.contains (entLayer e)

/-- Does a list of names contain a duplicate? -/
def hasDup : List String → Bool
  | [] => false
  | n :: ns => ns.contains n || hasDup ns

/-- Modelled from the spec: the §3 model invariants of a Drawing —
unique layer names, unique block names, per-entity geometric validity,
and no dangling layer/block references (checked for top-level entities
and entities inside blocks alike). -/
def drawingOk (d : Drawing) : Bool :=
  !hasDup (layerNames d) && !hasDup (blockNames d)
    && (allEntities d).all entGeomOk
    && (allEntities d).all (entRefOk (layerNames d) (blockNames d))

/-- Modelled from the spec: `ValidationError` kinds. -/
inductive ValidationError where
  | InvalidGeometry
  | DuplicateLayer
  | DuplicateBlock
  | DanglingReference
  deriving DecidableEq, Repr

/-- Modelled from the spec: validating point constructor — rejects
non-finite parsed coordinates with `InvalidGeometry`. -/
def mkPoint (x y : PNum) : Except ValidationError Pt :=
  match x, y with
  | .fin a, .fin b => .ok ⟨a, b⟩
  | _, _ => .error .InvalidGeometry

/-- Modelled from the spec: validating polyline constructor — a
Polyline must have at least one vertex. -/
def mkPolyline (layer : String) (vs : List Pt) : Except ValidationError Entity :=
  if vs.isEmpty then .error .InvalidGeometry
  else .ok (.polyline layer vs)

/-- Modelled from the spec: validating arc constructor — start angle
must be distinct from end angle. -/
def mkArc (layer : String) (center : Pt) (radius startAngle endAngle : ℚ) :
    Except ValidationError Entity :=
  if startAngle = endAngle then .error .InvalidGeometry
  else .ok (.arc layer center radius startAngle endAngle)

/-- Modelled from the spec: validating Drawing constructor — fails with
a `ValidationError` rather than constructing an inconsistent Drawing. -/
def mkDrawing (ls : List Layer) (bs : List Block) (es : List Entity) :
    Except ValidationError Drawing :=
  if hasDup (ls.map Layer.name) then .error .DuplicateLayer
  else if hasDup (bs.map Block.name) then .error .DuplicateBlock
  else if !(es ++ (bs.map Block.entities).flatten).all entGeomOk then
    .error .InvalidGeometry
  else if !(es ++ (bs.map Block.entities).flatten).all
      (entRefOk (ls.map Layer.name) (bs.map Block.name)) then
    .error .DanglingReference
  else .ok ⟨ls, bs, es⟩

/-! ## DXF Reader (modelled from spec §4.3) -/

/-- Modelled from the spec: import warnings carry the layer name
involved (empty when not applicable), the entity index and a message. -/
structure Warning where
  layerName : String
  entityIndex : Nat
  message : String
  deriving DecidableEq, Repr

/-- Modelled from the spec: `ImportError::Fatal` for structural
problems that abort the whole import. -/
inductive ImportError where
  | Fatal (msg : String)
  deriving DecidableEq, Repr

/-- Is this token the group-code-0 marker with the given value? -/
def isMarker (t : Token) (s : String) : Bool :=
  t.code == 0 && t.value == .str s

/-- States of the section-splitting machine (spec §4.3:
`Preamble → InSection(name) → Preamble → … → Done`). -/
inductive RMode where
  | preamble
  | expectName
  | inSection (name : String) (accRev : List Token)
  | done
  | failed (msg : String)

structure SplitState where
  sectionsRev : List (String × List Token)
  mode : RMode

/-- One step of the section state machine, keyed on the
`SECTION`/`ENDSEC` group-code-0 markers and the group-code-2 name. -/
def splitStep (st : SplitState) (t : Token) : SplitState :=
  match st.mode with
  | .preamble =>
    if isMarker t "SECTION" then ⟨st.sectionsRev, .expectName⟩
    else if isMarker t "EOF" then ⟨st.sectionsRev, .done⟩
    else ⟨st.sectionsRev, .failed "expected SECTION or EOF"⟩
  | .expectName =>
    match t with
    | ⟨2, .str n⟩ => ⟨st.sectionsRev, .inSection n []⟩
    | _ => ⟨st.sectionsRev, .failed "SECTION marker without a name"⟩
  | .inSection n acc =>
    if isMarker t "ENDSEC" then ⟨(n, acc.reverse) :: st.sectionsRev, .preamble⟩
    else ⟨st.sectionsRev, .inSection n (t :: acc)⟩
  | .done => st
  | .failed m => ⟨st.sectionsRev, .failed m⟩

/-- Split a token stream into named sections; structural problems
(missing `EOF`, unterminated section, unnamed section) are fatal. -/
def splitSections (ts : List Token) : Except ImportError (List (String × List Token)) :=
  match ts.foldl splitStep ⟨[], .preamble⟩ with
  | ⟨secs, .done⟩ => .ok secs.reverse
  | ⟨_, .failed m⟩ => .error (.Fatal m)
  | _ => .error (.Fatal "unexpected end of token stream")

/-- Body of the first section with the given name, or `[]` if absent. -/
def sectionBody (name : String) (secs : List (String × List Token)) : List Token :=
  match secs.find? (fun p => p.1 == name) with
  | some p => p.2
  | none => []

def tagOf : DxfVal → String
  | .str s => s
  | _ => ""

def notZero (t : Token) : Bool := t.code != 0

/-- Accumulate the fields of the chunk opened by the tag until the next
group-code-0 token (fields are accumulated in reverse). -/
def chunkAtZeroAux : List Token → String → List Token → List (String × List Token)
  | [], tag, acc => [(tag, acc.reverse)]
  | t :: ts, tag, acc =>
    if t.code == 0 then (tag, acc.reverse) :: chunkAtZeroAux ts (tagOf t.value) []
    else chunkAtZeroAux ts tag (t :: acc)

/-- Chunk a section body at each group-code-0 token: each chunk is the
entity (or table-entry) type name together with its field tokens.
Tokens before the first group-code-0 token are dropped. -/
def chunkAtZero : List Token → List (String × List Token)
  | [] => []
  | t :: ts =>
    if t.code == 0 then chunkAtZeroAux ts (tagOf t.value) []
    else chunkAtZero ts

/-- First value with the given group code among the field tokens. -/
def findVal (c : Int) (fs : List Token) : Option DxfVal :=
  (fs.find? (fun t => t.code == c)).map Token.value

def getStr (c : Int) (fs : List Token) : Option String :=
  match findVal c fs with
  | some (.str s) => some s
  | _ => none

def getInt (c : Int) (fs : List Token) : Option Int :=
  match findVal c fs with
  | some (.int i) => some i
  | _ => none

/-- A required double field: present AND finite (spec: non-finite input
is rejected and reported). -/
def getFin (c : Int) (fs : List Token) : Option ℚ :=
  match findVal c fs with
  | some (.real (.fin q)) => some q
  | _ => none

/-- Result of assembling one entity chunk: either an entity, or a
skip-with-warning message (spec §4.3: a required field missing degrades
that single entity to skipped-with-warning). -/
inductive EntParse where
  | okE (e : Entity)
  | skipE (msg : String)
  deriving DecidableEq, Repr

/-- Collect LWPOLYLINE vertices: each group-code-10 x must be followed
by a group-code-20 y with finite values; other field codes are skipped. -/
def collectVerts : List Token → Option (List Pt)
  | [] => some []
  | t :: ts =>
    if t.code == 10 then
      match t.value, ts with
      | .real (.fin x), t2 :: ts2 =>
        if t2.code == 20 then
          match t2.value with
          | .real (.fin y) => (collectVerts ts2).map (fun vs => ⟨x, y⟩ :: vs)
          | _ => none
        else none
      | _, _ => none
    else collectVerts ts

/-- Entity type names the reader recognizes. -/
def recognizedTags : List String :=
  ["LINE", "CIRCLE", "ARC", "LWPOLYLINE", "TEXT", "INSERT"]

/-- Modelled from the spec: entity dispatch on the group-code-0 type
name; recognized types are assembled field-by-field, a missing or
non-finite required field skips the single entity with a warning,
unrecognized types are skipped with a warning; an Arc whose start angle
equals its end angle is normalized to a full Circle. -/
def parseEntityChunk (tag : String) (fs : List Token) : EntParse :=
  let layer := (getStr 8 fs).getD "0"
  if tag = "LINE" then
    match getFin 10 fs, getFin 20 fs, getFin 11 fs, getFin 21 fs with
    | some x1, some y1, some x2, some y2 => .okE (.line layer ⟨x1, y1⟩ ⟨x2, y2⟩)
    | _, _, _, _ => .skipE "LINE: missing or invalid required field"
  else if tag = "CIRCLE" then
    match getFin 10 fs, getFin 20 fs, getFin 40 fs with
    | some cx, some cy, some r => .okE (.circle layer ⟨cx, cy⟩ r)
    | _, _, _ => .skipE "CIRCLE: missing or invalid required field"
  else if tag = "ARC" then
    match getFin 10 fs, getFin 20 fs, getFin 40 fs, getFin 50 fs, getFin 51 fs with
    | some cx, some cy, some r, some sa, some ea =>
      if sa = ea then .okE (.circle layer ⟨cx, cy⟩ r)
      else .okE (.arc layer ⟨cx, cy⟩ r sa ea)
    | _, _, _, _, _ => .skipE "ARC: missing or invalid required field"
  else if tag = "LWPOLYLINE" then
    match collectVerts fs with
    | some [] => .skipE "LWPOLYLINE: no vertices"
    | some vs => .okE (.polyline layer vs)
    | none => .skipE "LWPOLYLINE: malformed vertex data"
  else if tag = "TEXT" then
    match getFin 10 fs, getFin 20 fs, getFin 40 fs, getStr 1 fs with
    | some x, some y, some h, some s =>
      .okE (.text layer ⟨x, y⟩ h ((getFin 50 fs).getD 0) s)
    | _, _, _, _ => .skipE "TEXT: missing or invalid required field"
  else if tag = "INSERT" then
    match getStr 2 fs, getFin 10 fs, getFin 20 fs with
    | some b, some x, some y =>
      .okE (.insert layer b ⟨x, y⟩ ((getFin 41 fs).getD 1) ((getFin 50 fs).getD 0))
    | _, _, _ => .skipE "INSERT: missing or invalid required field"
  else .skipE ("unknown entity type: " ++ tag)

/-- Parse all entity chunks of a section body, producing the recognized
entities in order and one warning per skipped chunk. -/
def parseEntityChunks (idx : Nat) : List (String × List Token) → List Entity × List Warning
  | [] => ([], [])
  | (tag, fs) :: rest =>
    let (es, ws) := parseEntityChunks (idx + 1) rest
    match parseEntityChunk tag fs with
    | .okE e => (e :: es, ws)
    | .skipE m => (es, ⟨"", idx, m⟩ :: ws)

def parseEntitiesSection (body : List Token) : List Entity × List Warning :=
  parseEntityChunks 0 (chunkAtZero body)

/-- Parse one LAYER table entry; an entry without a name is ignored. -/
def parseLayerChunk (fs : List Token) : Option Layer :=
  match getStr 2 fs with
  | none => none
  | some n =>
    some ⟨n, (getInt 62 fs).getD 7, ((getInt 70 fs).getD 0) % 2 == 0,
      (getStr 6 fs).getD "CONTINUOUS"⟩

/-- Parse the TABLES section body: every `LAYER`-tagged chunk becomes a
layer; other table entries are ignored. -/
def parseLayersSection (body : List Token) : List Layer :=
  (chunkAtZero body).filterMap
    (fun p => if p.1 = "LAYER" then parseLayerChunk p.2 else none)

/-- State while folding over BLOCKS chunks: the block currently being
assembled, finished blocks (reversed) and warnings (reversed). -/
structure BlockAcc where
  curr : Option (String × Pt × List Entity)
  doneRev : List Block
  warnsRev : List Warning

def blockStep (acc : BlockAcc) (c : String × List Token) : BlockAcc :=
  if c.1 = "BLOCK" then
    match getStr 2 c.2 with
    | some n =>
      ⟨some (n, ⟨(getFin 10 c.2).getD 0, (getFin 20 c.2).getD 0⟩, []), acc.doneRev, acc.warnsRev⟩
    | none => ⟨none, acc.doneRev, ⟨"", 0, "BLOCK without a name"⟩ :: acc.warnsRev⟩
  else if c.1 = "ENDBLK" then
    match acc.curr with
    | some (n, bp, es) => ⟨none, ⟨n, bp, es⟩ :: acc.doneRev, acc.warnsRev⟩
    | none => acc
  else
    match acc.curr with
    | none => acc
    | some (n, bp, es) =>
      match parseEntityChunk c.1 c.2 with
      | .okE e => ⟨some (n, bp, es ++ [e]), acc.doneRev, acc.warnsRev⟩
      | .skipE m => ⟨some (n, bp, es), acc.doneRev, ⟨"", es.length, m⟩ :: acc.warnsRev⟩

/-- Parse the BLOCKS section body into block definitions. -/
def parseBlocksSection (body : List Token) : List Block × List Warning :=
  match (chunkAtZero body).foldl blockStep ⟨none, [], []⟩ with
  | ⟨_, doneRev, warnsRev⟩ => (doneRev.reverse, warnsRev.reverse)

/-- Replace an entity's owning layer. -/
def setLayer (l : String) : Entity → Entity
  | .line _ p1 p2 => .line l p1 p2
  | .circle _ c r => .circle l c r
  | .arc _ c r sa ea => .arc l c r sa ea
  | .polyline _ vs => .polyline l vs
  | .text _ p h rot s => .text l p h rot s
  | .insert _ b p sc rot => .insert l b p sc rot

/-- Modelled from the spec: layer/block resolution — an entity
referencing an undefined layer is reassigned to the synthesized "0"
default layer with a warning naming the missing layer; an Insert
referencing an undefined block is dropped with a warning.  Never aborts
the import. -/
def resolveEntities (lns bns : List String) (idx : Nat) :
    List Entity → List Entity × List Warning
  | [] => ([], [])
  | e :: es =>
    let l := entLayer e
    let (e1, w1) :=
      if lns.contains l then (e, ([] : List Warning))
      else (setLayer "0" e, [⟨l, idx, "undefined layer, entity reassigned to layer 0"⟩])
    let (rest, ws) := resolveEntities lns bns (idx + 1) es
    match e1 with
    | .insert _ b _ _ _ =>
      if bns.contains b then (e1 :: rest, w1 ++ ws)
      else (rest, w1 ++ [⟨"", idx, "INSERT references undefined block, dropped"⟩] ++ ws)
    | _ => (e1 :: rest, w1 ++ ws)

/-- The synthesized default layer "0". -/
def defaultLayer0 : Layer := ⟨"0", 7, true, "CONTINUOUS"⟩

/-- Add the synthesized "0" layer when some surviving entity lives on
layer "0" and the parsed tables do not define it. -/
def ensureLayer0 (parsed : List Layer) (es : List Entity) (bs : List Block) : List Layer :=
  if parsed.any (fun l => l.name == "0") then parsed
  else if es.any (fun e => entLayer e == "0")
      || bs.any (fun b => b.entities.any (fun e => entLayer e == "0")) then
    defaultLayer0 :: parsed
  else parsed

/-- Resolve the entities of each block against the defined names. -/
def resolveBlocks (lns bns : List String) :
    List Block → List Block × List Warning
  | [] => ([], [])
  | b :: bs =>
    let (es, ws) := resolveEntities lns bns 0 b.entities
    let (rest, wrest) := resolveBlocks lns bns bs
    (⟨b.name, b.basePoint, es⟩ :: rest, ws ++ wrest)

/-- Modelled from the spec: the DXF Reader — split the token stream
into sections (unknown sections skipped wholesale), parse the TABLES
layers, BLOCKS definitions and ENTITIES, then resolve layer and block
references.  The result carries the Drawing and the ordered non-fatal
warnings. -/
def readDrawing (ts : List Token) : Except ImportError (Drawing × List Warning) :=
  match splitSections ts with
  | .error e => .error e
  | .ok secs =>
    let parsedLayers := parseLayersSection (sectionBody "TABLES" secs)
    let pB := parseBlocksSection (sectionBody "BLOCKS" secs)
    let pE := parseEntitiesSection (sectionBody "ENTITIES" secs)
    let lns0 := parsedLayers.map Layer.name
    let lns := if lns0.contains "0" then lns0 else "0" :: lns0
    let bns := pB.1.map Block.name
    let rB := resolveBlocks lns bns pB.1
    let rE := resolveEntities lns bns 0 pE.1
    let layers := ensureLayer0 parsedLayers rE.1 rB.1
    .ok (⟨layers, rB.1, rE.1⟩, pB.2 ++ pE.2 ++ rB.2 ++ rE.2)

def tokenizeErrMsg : TokenizeError → String
  | .UnpairedGroupCode => "unpaired group code"
  | .MalformedNumber => "malformed number"
  | .UnexpectedEof => "unexpected end of file"

/-- Modelled from the spec: full DXF import — tokenize the raw text
then read the token stream; lexical failures are fatal. -/
def importDxfText (s : String) : Except ImportError (Drawing × List Warning) :=
  match tokenizeText s with
  | .error e => .error (.Fatal (tokenizeErrMsg e))
  | .ok ts => readDrawing ts

/-! ## DXF Writer (modelled from spec §4.4) -/

/-- Modelled from the spec: `ExportError` kinds — unsupported entity or
I/O failure. -/
inductive ExportError where
  | UnsupportedEntity (tag : String)
  | IoFailure (msg : String)
  deriving DecidableEq, Repr

/-- DXF type name of an entity variant. -/
def entityTag : Entity → String
  | .line .. => "LINE"
  | .circle .. => "CIRCLE"
  | .arc .. => "ARC"
  | .polyline .. => "LWPOLYLINE"
  | .text .. => "TEXT"
  | .insert .. => "INSERT"

/-- Modelled from the spec: the writer's schema table, listing the
entity variants it can serialize. -/
def writerSchema : List String :=
  ["LINE", "CIRCLE", "ARC", "LWPOLYLINE", "TEXT", "INSERT"]

def t0 (s : String) : Token := ⟨0, .str s⟩

def tsv (c : Int) (s : String) : Token := ⟨c, .str s⟩

def tiv (c : Int) (i : Int) : Token := ⟨c, .int i⟩

def trv (c : Int) (q : ℚ) : Token := ⟨c, .real (.fin q)⟩

/-- Field tokens of one entity, group codes in the fixed order defined
by the entity's schema. -/
def entityFieldTokens : Entity → List Token
  | .line l p1 p2 =>
    [tsv 8 l, trv 10 p1.x, trv 20 p1.y, trv 11 p2.x, trv 21 p2.y]
  | .circle l c r =>
    [tsv 8 l, trv 10 c.x, trv 20 c.y, trv 40 r]
  | .arc l c r sa ea =>
    [tsv 8 l, trv 10 c.x, trv 20 c.y, trv 40 r, trv 50 sa, trv 51 ea]
  | .polyline l vs =>
    [tsv 8 l, tiv 90 (vs.length : Int)] ++ (vs.map (fun p => [trv 10 p.x, trv 20 p.y])).flatten
  | .text l p h rot s =>
    [tsv 8 l, trv 10 p.x, trv 20 p.y, trv 40 h, trv 50 rot, tsv 1 s]
  | .insert l b p sc rot =>
    [tsv 8 l, tsv 2 b, trv 10 p.x, trv 20 p.y, trv 41 sc, trv 50 rot]

/-- Modelled from the spec: serialize one entity, failing with
`ExportError::UnsupportedEntity` if the entity's variant is not covered
by the writer schema table (a defensive branch). -/
def writeEntity (e : Entity) : Except ExportError (List Token) :=
  if writerSchema.contains (entityTag e) then
    .ok (t0 (entityTag e) :: entityFieldTokens e)
  else .error (.UnsupportedEntity (entityTag e))

def writeEntityList : List Entity → Except ExportError (List Token)
  | [] => .ok []
  | e :: es =>
    match writeEntity e with
    | .error er => .error er
    | .ok ts =>
      match writeEntityList es with
      | .error er => .error er
      | .ok rest => .ok (ts ++ rest)

/-- Wrap a body in `SECTION`/name/`ENDSEC` markers. -/
def sectionTokens (name : String) (body : List Token) : List Token :=
  t0 "SECTION" :: tsv 2 name :: body ++ [t0 "ENDSEC"]

/-- Layer table entry tokens. -/
def layerTokens (l : Layer) : List Token :=
  [t0 "LAYER", tsv 2 l.name, tiv 62 l.colorIndex, tiv 70 (if l.visible then 0 else 1),
    tsv 6 l.lineType]

def tablesBody (ls : List Layer) : List Token :=
  t0 "TABLE" :: tsv 2 "LAYER" :: (ls.map layerTokens).flatten ++ [t0 "ENDTAB"]

def blockTokens (b : Block) (ents : List Token) : List Token :=
  t0 "BLOCK" :: tsv 2 b.name :: trv 10 b.basePoint.x :: trv 20 b.basePoint.y ::
    ents ++ [t0 "ENDBLK"]

def writeBlockList : List Block → Except ExportError (List Token)
  | [] => .ok []
  | b :: bs =>
    match writeEntityList b.entities with
    | .error er => .error er
    | .ok ents =>
      match writeBlockList bs with
      | .error er => .error er
      | .ok rest => .ok (blockTokens b ents ++ rest)

/-- Minimal HEADER section body: the baseline version marker. -/
def headerBody : List Token := [⟨9, .str "$ACADVER"⟩, tsv 1 "AC1014"]

/-- Modelled from the spec: the DXF Writer — emits sections in
canonical order (HEADER, TABLES, BLOCKS, ENTITIES, EOF), each entity
serialized deterministically with its schema's fixed group-code order. -/
def writeDrawing (d : Drawing) : Except ExportError (List Token) :=
  match writeBlockList d.blocks with
  | .error er => .error er
  | .ok blks =>
    match writeEntityList d.entities with
    | .error er => .error er
    | .ok ents =>
      .ok (sectionTokens "HEADER" headerBody
        ++ sectionTokens "TABLES" (tablesBody d.layers)
        ++ sectionTokens "BLOCKS" blks
        ++ sectionTokens "ENTITIES" ents
        ++ [t0 "EOF"])

/-! ## Textual rendering (modelled from spec §4.4 numeric formatting) -/

/-- Decimal digits of the fractional part, fixed precision. -/
def fracDigitsList : ℚ → Nat → List Char
  | _, 0 => []
  | q, n + 1 =>
    let q10 := q * 10
    let d := q10.floor
    Char.ofNat (48 + d.toNat) :: fracDigitsList (q10 - d) n

/-- Modelled from the spec: doubles rendered with a fixed, sufficient
decimal precision (12 fractional digits here). -/
def fmtRat (q : ℚ) : String :=
  let a := if q < 0 then -q else q
  (if q < 0 then "-" else "") ++ toString a.floor.toNat ++ "." ++
    String.mk (fracDigitsList (a - a.floor) 12)

def renderVal : DxfVal → String
  | .str s => s
  | .int i => toString i
  | .real (.fin q) => fmtRat q
  | .real .pnan => "nan"
  | .real .pinf => "inf"

/-- Render a token stream into the textual DXF layout: a group-code
line followed by a value line, for each token. -/
def renderTokens (ts : List Token) : String :=
  String.join (ts.map (fun t => toString t.code ++ "\n" ++ renderVal t.value ++ "\n"))

/-! ## Document Persistence Adapter (modelled from spec §4.5) -/

/-- Modelled from the spec: `PersistError` kinds. -/
inductive PersistError where
  | IoFailure (msg : String)
  | CorruptData (msg : String)
  | VersionMismatch (found : String)
  deriving DecidableEq, Repr

/-- Leading version field of the native document format. -/
def nativeFormatVersion : String := "ONDS1"

/-- First line of a character stream and the remainder after it. -/
def firstLineSplit (cs : List Char) : List Char × List Char :=
  (cs.takeWhile (fun c => c ≠ '\n'), (cs.dropWhile (fun c => c ≠ '\n')).drop 1)

/-- Modelled from the spec: native-format load — check the leading
version field, then deserialize the document body; failures map to
`VersionMismatch` / `CorruptData`. -/
def loadNative (content : String) : Except PersistError Drawing :=
  match firstLineSplit content.data with
  | (hdr, body) =>
    if hdr ≠ nativeFormatVersion.data then .error (.VersionMismatch (String.mk hdr))
    else
      match tokenizeText (String.mk body) with
      | .error _ => .error (.CorruptData "document body is not tokenizable")
      | .ok ts =>
        match readDrawing ts with
        | .error _ => .error (.CorruptData "document body is not a valid drawing")
        | .ok (d, _) => .ok d

/-! ## Command Facade (modelled from spec §4.6; registration from
`src/src-tauri/src/main.rs`) -/

/-- The host filesystem, modelled as an association list from resolved
path to file contents. -/
abbrev FS := List (String × String)

def fsRead (fs : FS) (p : String) : Option String :=
  (fs.find? (fun e => e.1 == p)).map (fun e => e.2)

def fsWrite (fs : FS) (p c : String) : FS := (p, c) :: fs

def persistErrString : PersistError → String
  | .IoFailure m => "I/O failure: " ++ m
  | .CorruptData m => "corrupt document: " ++ m
  | .VersionMismatch f => "unsupported document version: " ++ f

def exportErrString : ExportError → String
  | .UnsupportedEntity t => "cannot export entity type: " ++ t
  | .IoFailure m => "I/O failure: " ++ m

def importErrString : ImportError → String
  | .Fatal m => "import failed: " ++ m

/-- Modelled from the spec: `save_file(document, path)` — validates the
path, serializes the document in the native format (version field plus
body) and writes it; every internal failure is converted to a string. -/
def save_file (document : Drawing) (path : String) (fs : FS) : Except String FS :=
  if path = "" then .error "save_file: empty path"
  else
    match writeDrawing document with
    | .error er => .error (persistErrString (.CorruptData (exportErrString er)))
    | .ok ts => .ok (fsWrite fs path (nativeFormatVersion ++ "\n" ++ renderTokens ts))

/-- Modelled from the spec: `load_file(path)` — validates the path,
reads and deserializes the native document; every internal
`PersistError` is converted to a string. -/
def load_file (path : String) (fs : FS) : Except String Drawing :=
  if path = "" then .error "load_file: empty path"
  else
    match fsRead fs path with
    | none => .error (persistErrString (.IoFailure path))
    | some content =>
      match loadNative content with
      | .error pe => .error (persistErrString pe)
      | .ok d => .ok d

/-- Modelled from the spec: `export_dxf(document, path)` — validates
the path, serializes the document with the DXF Writer and writes the
rendered text; every internal `ExportError` is converted to a string. -/
def export_dxf (document : Drawing) (path : String) (fs : FS) : Except String FS :=
  if path = "" then .error "export_dxf: empty path"
  else
    match writeDrawing document with
    | .error er => .error (exportErrString er)
    | .ok ts => .ok (fsWrite fs path (renderTokens ts))

/-- Modelled from the spec: `import_dxf(path)` — validates the path,
reads the file and runs the DXF Reader; every internal `ImportError` is
converted to a string. -/
def import_dxf (path : String) (fs : FS) : Except String (Drawing × List Warning) :=
  if path = "" then .error "import_dxf: empty path"
  else
    match fsRead fs path with
    | none => .error (importErrString (.Fatal ("cannot read file: " ++ path)))
    | some content =>
      match importDxfText content with
      | .error e => .error (importErrString e)
      | .ok r => .ok r

/-- The four host commands, as registered in `main.rs`. -/
inductive HostCommand where
  | cmdSaveFile
  | cmdLoadFile
  | cmdExportDxf
  | cmdImportDxf
  deriving DecidableEq, Repr

/-- The command name each handler is registered under. -/
def HostCommand.rustName : HostCommand → String
  | .cmdSaveFile => "save_file"
  | .cmdLoadFile => "load_file"
  | .cmdExportDxf => "export_dxf"
  | .cmdImportDxf => "import_dxf"

/-- The `invoke_handler` registration list of
`src/src-tauri/src/main.rs` (lines 13–18): exactly these four commands
are exposed to the host runtime. -/
def registeredCommands : List String :=
  ["save_file", "load_file", "export_dxf", "import_dxf"]

/-- Arguments a host call can carry (a document and/or a path). -/
structure CommandArgs where
  document : Drawing
  path : String

/-- Success payloads of the facade operations. -/
inductive CommandOk where
  | unitOut (newFs : FS)
  | docOut (document : Drawing) (warnings : List Warning)

/-- Statically enumerated mapping from command to handler (spec §9:
host-runtime command registration re-expressed as an explicit mapping). -/
def dispatch : HostCommand → CommandArgs → FS → Except String CommandOk
  | .cmdSaveFile, a, fs => (save_file a.document a.path fs).map .unitOut
  | .cmdLoadFile, a, fs => (load_file a.path fs).map (fun d => .docOut d [])
  | .cmdExportDxf, a, fs => (export_dxf a.document a.path fs).map .unitOut
  | .cmdImportDxf, a, fs => (import_dxf a.path fs).map (fun r => .docOut r.1 r.2)

/-! ## Decidable equality for results (used to evaluate witnesses) -/

def exceptDecEq [DecidableEq ε] [DecidableEq α] : DecidableEq (Except ε α)
  | .ok a, .ok b =>
    if h : a = b then .isTrue (by rw [h]) else .isFalse (by intro hc; cases hc; exact h rfl)
  | .ok _, .error _ => .isFalse (by intro hc; cases hc)
  | .error _, .ok _ => .isFalse (by intro hc; cases hc)
  | .error a, .error b =>
    if h : a = b then .isTrue (by rw [h]) else .isFalse (by intro hc; cases hc; exact h rfl)

instance [DecidableEq ε] [DecidableEq α] : DecidableEq (Except ε α) := exceptDecEq

/-! ## Theorems -/

/-- C8: running the DXF import twice on the same byte sequence yields
two Drawings that are deep-equal — import is a pure, deterministic
function of its input. -/
theorem import_two_runs_deep_equal (bytes : String) (d1 d2 : Drawing)
    (w1 w2 : List Warning)
    (h1 : importDxfText bytes = .ok (d1, w1))
    (h2 : importDxfText bytes = .ok (d2, w2)) : d1 = d2 ∧ w1 = w2 := by
  rw [h1] at h2
  simp only [Except.ok.injEq, Prod.mk.injEq] at h2
  exact h2

set_option maxRecDepth 10000 in
/-- Witness for C8 at a concrete byte sequence. -/
theorem import_two_runs_deep_equal_witness :
    importDxfText "0\nEOF\n" = .ok (⟨[], [], []⟩, []) ∧
      (⟨[], [], []⟩ : Drawing) = ⟨[], [], []⟩ ∧ ([] : List Warning) = [] := by
  refine ⟨by decide, ?_⟩
  have h := import_two_runs_deep_equal "0\nEOF\n" ⟨[], [], []⟩ ⟨[], [], []⟩ [] []
    (by decide) (by decide)
  exact ⟨h.1, h.2⟩

/-- C6: an Arc entity whose start angle equals its end angle is not
rejected by the reader's entity dispatch: it imports as a Circle whose
radius equals the arc's radius. -/
theorem degenerate_arc_imports_as_circle (l : String) (cx cy r sa ea : ℚ)
    (h : sa = ea) :
    parseEntityChunk "ARC"
        [tsv 8 l, trv 10 cx, trv 20 cy, trv 40 r, trv 50 sa, trv 51 ea]
      = .okE (.circle l ⟨cx, cy⟩ r) := by
  subst h
  simp [parseEntityChunk, getFin, getStr, findVal, List.find?, tsv, trv]

/-- Witness for C6 at a concrete arc. -/
theorem degenerate_arc_imports_as_circle_witness :
    (0 : ℚ) = 0 ∧
      parseEntityChunk "ARC"
          [tsv 8 "0", trv 10 1, trv 20 2, trv 40 3, trv 50 0, trv 51 0]
        = .okE (.circle "0" ⟨1, 2⟩ 3) :=
  ⟨rfl, degenerate_arc_imports_as_circle "0" 1 2 3 0 0 rfl⟩

/-- C1: the command surface exposed to the host runtime consists of
exactly the four operations registered in `main.rs` — `save_file`,
`load_file`, `export_dxf`, `import_dxf` — and each returns a result
whose success payload is the operation's output and whose error is a
string. -/
theorem command_surface_exactly_four :
    registeredCommands =
      [HostCommand.cmdSaveFile.rustName, HostCommand.cmdLoadFile.rustName,
        HostCommand.cmdExportDxf.rustName, HostCommand.cmdImportDxf.rustName]
    ∧ registeredCommands.length = 4
    ∧ (∀ c : HostCommand, registeredCommands.contains c.rustName = true)
    ∧ (∀ (c : HostCommand) (a : CommandArgs) (fs : FS),
        (∃ res : CommandOk, dispatch c a fs = .ok res)
          ∨ (∃ msg : String, dispatch c a fs = .error msg)) := by
  refine ⟨rfl, rfl, ?_, ?_⟩
  · intro c
    cases c <;> rfl
  · intro c a fs
    cases h : dispatch c a fs with
    | ok r => exact .inl ⟨r, rfl⟩
    | error m => exact .inr ⟨m, rfl⟩

/-- C3: every facade operation, for every input, returns a result value
(success payload or error string) and never panics across the host
boundary — the operations are total functions into a result type, and
every error they return is either the facade's own path-validation
message or the string conversion of an internal error value. -/
theorem facade_total_and_converts_errors :
    (∀ (c : HostCommand) (a : CommandArgs) (fs : FS),
        (∃ res, dispatch c a fs = .ok res) ∨ (∃ msg, dispatch c a fs = .error msg))
    ∧ (∀ doc p fs msg, save_file doc p fs = .error msg →
        msg = "save_file: empty path" ∨ ∃ pe, msg = persistErrString pe)
    ∧ (∀ p fs msg, load_file p fs = .error msg →
        msg = "load_file: empty path" ∨ ∃ pe, msg = persistErrString pe)
    ∧ (∀ doc p fs msg, export_dxf doc p fs = .error msg →
        msg = "export_dxf: empty path" ∨ ∃ ee, msg = exportErrString ee)
    ∧ (∀ p fs msg, import_dxf p fs = .error msg →
        msg = "import_dxf: empty path" ∨ ∃ ie, msg = importErrString ie) := by
  refine ⟨?_, ?_, ?_, ?_, ?_⟩
  · intro c a fs
    cases h : dispatch c a fs with
    | ok r => exact .inl ⟨r, rfl⟩
    | error m => exact .inr ⟨m, rfl⟩
  · intro doc p fs msg h
    unfold save_file at h
    split at h
    · exact .inl (Except.error.inj h).symm
    · split at h
      · exact .inr ⟨_, (Except.error.inj h).symm⟩
      · cases h
  · intro p fs msg h
    unfold load_file at h
    split at h
    · exact .inl (Except.error.inj h).symm
    · split at h
      · exact .inr ⟨_, (Except.error.inj h).symm⟩
      · split at h
        · exact .inr ⟨_, (Except.error.inj h).symm⟩
        · cases h
  · intro doc p fs msg h
    unfold export_dxf at h
    split at h
    · exact .inl (Except.error.inj h).symm
    · split at h
      · exact .inr ⟨_, (Except.error.inj h).symm⟩
      · cases h
  · intro p fs msg h
    unfold import_dxf at h
    split at h
    · exact .inl (Except.error.inj h).symm
    · split at h
      · exact .inr ⟨_, (Except.error.inj h).symm⟩
      · split at h
        · exact .inr ⟨_, (Except.error.inj h).symm⟩
        · cases h

/-- Witness for C3 at a concrete failing call: loading a missing path
produces the string conversion of a `PersistError`. -/
theorem facade_total_and_converts_errors_witness :
    load_file "a.nds" [] = .error (persistErrString (.IoFailure "a.nds")) ∧
      (persistErrString (.IoFailure "a.nds") = "load_file: empty path"
        ∨ ∃ pe, persistErrString (.IoFailure "a.nds") = persistErrString pe) :=
  ⟨rfl, facade_total_and_converts_errors.2.2.1 "a.nds" [] _ rfl⟩

/-- Every entity variant is covered by the writer schema table. -/
theorem writerSchema_covers (e : Entity) :
    writerSchema.contains (entityTag e) = true := by
  cases e <;> rfl

theorem writeEntity_ok (e : Entity) :
    writeEntity e = .ok (t0 (entityTag e) :: entityFieldTokens e) := by
  unfold writeEntity
  rw [writerSchema_covers e]
  rfl

theorem writeEntityList_ok (es : List Entity) :
    ∃ ts, writeEntityList es = .ok ts := by
  induction es with
  | nil => exact ⟨[], rfl⟩
  | cons e es ih =>
    obtain ⟨ts, hts⟩ := ih
    exact ⟨_, by rw [writeEntityList, writeEntity_ok e, hts]⟩

theorem writeBlockList_ok (bs : List Block) :
    ∃ ts, writeBlockList bs = .ok ts := by
  induction bs with
  | nil => exact ⟨[], rfl⟩
  | cons b bs ih =>
    obtain ⟨ts, hts⟩ := ih
    obtain ⟨es, hes⟩ := writeEntityList_ok b.entities
    exact ⟨_, by rw [writeBlockList, hes, hts]⟩

/-- C10: the DXF Writer fails with `ExportError::UnsupportedEntity`
only if the Drawing contains an entity variant absent from the writer's
schema table; since the schema table covers every variant of the closed
entity type, the write of any Drawing succeeds and the error branch is
unreachable. -/
theorem writer_unsupported_entity_unreachable :
    (∀ e : Entity, writerSchema.contains (entityTag e) = true)
    ∧ (∀ d : Drawing, ∃ ts, writeDrawing d = .ok ts)
    ∧ (∀ (d : Drawing) (t : String),
        writeDrawing d = .error (.UnsupportedEntity t) →
          ∃ e, e ∈ allEntities d ∧ writerSchema.contains (entityTag e) = false) := by
  have hok : ∀ d : Drawing, ∃ ts, writeDrawing d = .ok ts := by
    intro d
    obtain ⟨bts, hb⟩ := writeBlockList_ok d.blocks
    obtain ⟨ets, he⟩ := writeEntityList_ok d.entities
    exact ⟨_, by rw [writeDrawing, hb, he]⟩
  refine ⟨writerSchema_covers, hok, ?_⟩
  intro d t h
  obtain ⟨ts, hts⟩ := hok d
  rw [hts] at h
  cases h

/-- C9: the Geometry Model constructors validate the §3 invariants and
fail with a `ValidationError` of kind `InvalidGeometry`,
`DuplicateLayer`, `DuplicateBlock` or `DanglingReference` rather than
constructing an inconsistent Drawing: `mkPoint` accepts exactly finite
coordinates, the entity constructors establish the per-entity
invariants, `mkDrawing` succeeds exactly on invariant-satisfying data
and returns the input unchanged, so every constructed Drawing satisfies
`drawingOk`; every returned error is one of the four kinds. -/
theorem constructors_validate_invariants :
    (∀ x y : PNum, (∃ p, mkPoint x y = .ok p) ↔ (x.isFinite && y.isFinite) = true)
    ∧ (∀ l vs e, mkPolyline l vs = .ok e → entGeomOk e = true)
    ∧ (∀ l c r sa ea e, mkArc l c r sa ea = .ok e → entGeomOk e = true)
    ∧ (∀ ls bs es,
        ((∃ d, mkDrawing ls bs es = .ok d) ↔ drawingOk ⟨ls, bs, es⟩ = true)
        ∧ (∀ d, mkDrawing ls bs es = .ok d → d = ⟨ls, bs, es⟩ ∧ drawingOk d = true)
        ∧ (∀ err, mkDrawing ls bs es = .error err →
            drawingOk ⟨ls, bs, es⟩ = false
            ∧ (err = .InvalidGeometry ∨ err = .DuplicateLayer
                ∨ err = .DuplicateBlock ∨ err = .DanglingReference))) := by
  refine ⟨?_, ?_, ?_, ?_⟩
  · intro x y
    constructor
    · rintro ⟨p, hp⟩
      cases x <;> cases y <;> simp [mkPoint, PNum.isFinite] at hp ⊢
    · intro h
      cases x <;> cases y <;> simp [PNum.isFinite] at h
      exact ⟨_, rfl⟩
  · intro l vs e h
    unfold mkPolyline at h
    cases hv : vs.isEmpty with
    | true => simp [hv] at h
    | false =>
      simp [hv] at h
      cases h
      simp [entGeomOk, hv]
  · intro l c r sa ea e h
    unfold mkArc at h
    by_cases ha : sa = ea
    · simp [ha] at h
    · simp [ha] at h
      cases h
      simp [entGeomOk]
      exact ha
  · intro ls bs es
    have quad : (mkDrawing ls bs es = .ok ⟨ls, bs, es⟩ ∧ drawingOk ⟨ls, bs, es⟩ = true)
        ∨ ((∃ err, mkDrawing ls bs es = .error err) ∧ drawingOk ⟨ls, bs, es⟩ = false) := by
      cases hA : hasDup (ls.map Layer.name) with
      | true =>
        exact .inr ⟨⟨.DuplicateLayer, by simp [mkDrawing, hA]⟩, by simp [drawingOk, layerNames, hA]⟩
      | false =>
        cases hB : hasDup (bs.map Block.name) with
        | true =>
          exact .inr ⟨⟨.DuplicateBlock, by simp [mkDrawing, hA, hB]⟩,
            by simp [drawingOk, layerNames, blockNames, hA, hB]⟩
        | false =>
          cases hC : (es ++ (bs.map Block.entities).flatten).all entGeomOk with
          | false =>
            exact .inr ⟨⟨.InvalidGeometry, by simp [mkDrawing, hA, hB, hC]⟩,
              by simp [drawingOk, layerNames, blockNames, allEntities, hA, hB, hC]⟩
          | true =>
            cases hD : (es ++ (bs.map Block.entities).flatten).all
                (entRefOk (ls.map Layer.name) (bs.map Block.name)) with
            | false =>
              exact .inr ⟨⟨.DanglingReference, by simp [mkDrawing, hA, hB, hC, hD]⟩,
                by simp [drawingOk, layerNames, blockNames, allEntities, hA, hB, hC, hD]⟩
            | true =>
              exact .inl ⟨by simp [mkDrawing, hA, hB, hC, hD],
                by simp [drawingOk, layerNames, blockNames, allEntities, hA, hB, hC, hD]⟩
    have key : (∃ d, mkDrawing ls bs es = .ok d) ↔ drawingOk ⟨ls, bs, es⟩ = true := by
      rcases quad with ⟨h1, h2⟩ | ⟨⟨err, h1⟩, h2⟩
      · exact ⟨fun _ => h2, fun _ => ⟨_, h1⟩⟩
      · constructor
        · rintro ⟨d, hd⟩
          rw [h1] at hd
          cases hd
        · intro h
          rw [h] at h2
          cases h2
    have okeq : ∀ d, mkDrawing ls bs es = .ok d → d = ⟨ls, bs, es⟩ := by
      intro d hd
      rcases quad with ⟨h1, _⟩ | ⟨⟨err, h1⟩, _⟩
      · rw [h1] at hd
        exact (Except.ok.inj hd).symm
      · rw [h1] at hd
        cases hd
    refine ⟨key, ?_, ?_⟩
    · intro d hd
      have he := okeq d hd
      exact ⟨he, by rw [he]; exact key.mp ⟨d, hd⟩⟩
    · intro err herr
      constructor
      · cases h : drawingOk ⟨ls, bs, es⟩ with
        | false => rfl
        | true =>
          obtain ⟨d, hd⟩ := key.mpr h
          rw [hd] at herr
          cases herr
      · cases err
        · exact .inl rfl
        · exact .inr (.inl rfl)
        · exact .inr (.inr (.inl rfl))
        · exact .inr (.inr (.inr rfl))

/-- Induction principle consuming a list two elements at a time. -/
theorem twoStepInduction {α : Type} {P : List α → Prop} (h0 : P []) (h1 : ∀ a, P [a])
    (h2 : ∀ a b l, P l → P (a :: b :: l)) : ∀ l, P l
  | [] => h0
  | [a] => h1 a
  | a :: b :: l => h2 a b l (twoStepInduction h0 h1 h2 l)

/-- C7: for every well-formed input in which group-code lines and value
lines pair up correctly (that is, whenever the tokenizer succeeds), the
tokenizer produces exactly one Token per code/value line pair — the
input has exactly twice as many lines as the output has tokens, so no
pair is dropped and none yields more than one Token. -/
theorem tokenizer_one_token_per_pair (lines : List (List Char)) (ts : List Token)
    (h : tokenizePairs lines = .ok ts) : lines.length = 2 * ts.length := by
  induction lines using twoStepInduction generalizing ts with
  | h0 =>
    simp only [tokenizePairs] at h
    cases h
    rfl
  | h1 a =>
    simp only [tokenizePairs] at h
    cases h
  | h2 a b l ih =>
    simp only [tokenizePairs] at h
    cases hp : pairToken a b with
    | error e => rw [hp] at h; cases h
    | ok t =>
      rw [hp] at h
      cases hr : tokenizePairs l with
      | error e => rw [hr] at h; cases h
      | ok ts2 =>
        rw [hr] at h
        cases h
        have := ih ts2 hr
        simp only [List.length_cons, this]
        omega

/-- Witness for C7 at a concrete well-formed pairing. -/
theorem tokenizer_one_token_per_pair_witness :
    tokenizePairs ["0".data, "EOF".data] = .ok [⟨0, .str "EOF"⟩] ∧
      (["0".data, "EOF".data] : List (List Char)).length
        = 2 * ([⟨0, .str "EOF"⟩] : List Token).length :=
  ⟨by decide, tokenizer_one_token_per_pair _ _ (by decide)⟩

/-! ## Reader/Writer correspondence lemmas -/

theorem isMarker_t0 (s r : String) : isMarker (t0 s) r = (s == r) := by
  simp [isMarker, t0]

theorem isMarker_code_ne (t : Token) (s : String) (h : t.code ≠ 0) :
    isMarker t s = false := by
  simp [isMarker]
  intro hc
  exact absurd hc h

theorem foldl_inSection (body : List Token) :
    ∀ (n : String) (secs : List (String × List Token)) (acc : List Token),
      (∀ t ∈ body, isMarker t "ENDSEC" = false) →
      List.foldl splitStep ⟨secs, .inSection n acc⟩ body
        = ⟨secs, .inSection n (body.reverse ++ acc)⟩ := by
  induction body with
  | nil => intro n secs acc _; simp
  | cons t ts ih =>
    intro n secs acc hb
    have ht : isMarker t "ENDSEC" = false := hb t (List.mem_cons_self t ts)
    have hts : ∀ t' ∈ ts, isMarker t' "ENDSEC" = false :=
      fun t' h' => hb t' (List.mem_cons_of_mem _ h')
    simp only [List.foldl_cons, splitStep, ht, Bool.false_eq_true, if_false]
    rw [ih n secs (t :: acc) hts]
    simp

theorem foldl_section (name : String) (body : List Token)
    (secs : List (String × List Token))
    (hb : ∀ t ∈ body, isMarker t "ENDSEC" = false) :
    List.foldl splitStep ⟨secs, .preamble⟩ (sectionTokens name body)
      = ⟨(name, body) :: secs, .preamble⟩ := by
  show List.foldl splitStep _ (t0 "SECTION" :: tsv 2 name :: (body ++ [t0 "ENDSEC"])) = _
  rw [List.foldl_cons, List.foldl_cons]
  have h1 : splitStep ⟨secs, .preamble⟩ (t0 "SECTION") = ⟨secs, .expectName⟩ := by
    simp [splitStep, isMarker_t0]
  have h2 : splitStep ⟨secs, .expectName⟩ (tsv 2 name) = ⟨secs, .inSection name []⟩ := rfl
  rw [h1, h2, List.foldl_append, foldl_inSection body name secs [] hb]
  simp [splitStep, isMarker_t0]

theorem splitSections_writer (hdr tbl blk ent : List Token)
    (h1 : ∀ t ∈ hdr, isMarker t "ENDSEC" = false)
    (h2 : ∀ t ∈ tbl, isMarker t "ENDSEC" = false)
    (h3 : ∀ t ∈ blk, isMarker t "ENDSEC" = false)
    (h4 : ∀ t ∈ ent, isMarker t "ENDSEC" = false) :
    splitSections (sectionTokens "HEADER" hdr ++ sectionTokens "TABLES" tbl
        ++ sectionTokens "BLOCKS" blk ++ sectionTokens "ENTITIES" ent ++ [t0 "EOF"])
      = .ok [("HEADER", hdr), ("TABLES", tbl), ("BLOCKS", blk), ("ENTITIES", ent)] := by
  unfold splitSections
  rw [List.foldl_append, List.foldl_append, List.foldl_append, List.foldl_append]
  rw [foldl_section "HEADER" hdr _ h1, foldl_section "TABLES" tbl _ h2,
    foldl_section "BLOCKS" blk _ h3, foldl_section "ENTITIES" ent _ h4]
  simp [splitStep, isMarker_t0]

/-- Token list of a chunk: its group-code-0 type marker followed by its
field tokens. -/
def chunkTokens (c : String × List Token) : List Token :=
  ⟨0, .str c.1⟩ :: c.2

theorem chunkAux_fields (fields : List Token) :
    ∀ (tag : String) (acc rest : List Token),
      (∀ t ∈ fields, (t.code == 0) = false) →
      chunkAtZeroAux (fields ++ rest) tag acc
        = chunkAtZeroAux rest tag (fields.reverse ++ acc) := by
  induction fields with
  | nil => intro tag acc rest _; simp
  | cons t ts ih =>
    intro tag acc rest h
    have ht : (t.code == 0) = false := h t (List.mem_cons_self t ts)
    have hts : ∀ t' ∈ ts, (t'.code == 0) = false :=
      fun t' h' => h t' (List.mem_cons_of_mem _ h')
    simp only [List.cons_append, chunkAtZeroAux, ht, Bool.false_eq_true, if_false,
      List.append_eq]
    rw [ih tag (t :: acc) rest hts]
    simp

theorem chunkAux_chunks (cs : List (String × List Token)) :
    ∀ (tag : String) (acc : List Token),
      (∀ c ∈ cs, ∀ t ∈ c.2, (t.code == 0) = false) →
      chunkAtZeroAux ((cs.map chunkTokens).flatten) tag acc
        = (tag, acc.reverse) :: cs := by
  induction cs with
  | nil => intro tag acc _; rfl
  | cons c cs ih =>
    intro tag acc h
    have hc : ∀ t ∈ c.2, (t.code == 0) = false := h c (List.mem_cons_self c cs)
    have hcs : ∀ c' ∈ cs, ∀ t ∈ c'.2, (t.code == 0) = false :=
      fun c' h' => h c' (List.mem_cons_of_mem _ h')
    show chunkAtZeroAux ((⟨0, .str c.1⟩ :: c.2) ++ (cs.map chunkTokens).flatten) tag acc = _
    simp only [List.cons_append, chunkAtZeroAux, beq_self_eq_true, if_true,
      List.append_eq, tagOf]
    rw [chunkAux_fields c.2 c.1 _ _ hc, ih c.1 (c.2.reverse ++ []) hcs]
    simp [tagOf]

theorem chunkAtZero_chunks (cs : List (String × List Token))
    (h : ∀ c ∈ cs, ∀ t ∈ c.2, (t.code == 0) = false) :
    chunkAtZero ((cs.map chunkTokens).flatten) = cs := by
  cases cs with
  | nil => rfl
  | cons c cs =>
    have hc : ∀ t ∈ c.2, (t.code == 0) = false := h c (List.mem_cons_self c cs)
    have hcs : ∀ c' ∈ cs, ∀ t ∈ c'.2, (t.code == 0) = false :=
      fun c' h' => h c' (List.mem_cons_of_mem _ h')
    show chunkAtZero ((⟨0, .str c.1⟩ :: c.2) ++ (cs.map chunkTokens).flatten) = _
    simp only [List.cons_append, chunkAtZero, beq_self_eq_true, if_true,
      List.append_eq, tagOf]
    rw [chunkAux_fields c.2 c.1 _ _ hc, chunkAux_chunks cs c.1 (c.2.reverse ++ []) hcs]
    simp [tagOf]

/-- The table-entry chunk a layer is written as. -/
def layerChunk (l : Layer) : String × List Token :=
  ("LAYER", [tsv 2 l.name, tiv 62 l.colorIndex, tiv 70 (if l.visible then 0 else 1),
    tsv 6 l.lineType])

/-- The chunk list of the TABLES section body the writer emits. -/
def tablesChunks (ls : List Layer) : List (String × List Token) :=
  ("TABLE", [tsv 2 "LAYER"]) :: ls.map layerChunk ++ [("ENDTAB", [])]

theorem tablesBody_chunks (ls : List Layer) :
    tablesBody ls = ((tablesChunks ls).map chunkTokens).flatten := by
  have hmap : List.map layerTokens ls
      = List.map (fun l => chunkTokens (layerChunk l)) ls :=
    List.map_congr_left (fun l _ => rfl)
  simp [tablesBody, tablesChunks, chunkTokens, List.map_map, Function.comp_def, hmap, t0]

/-- The chunk an entity is written as. -/
def entityChunk (e : Entity) : String × List Token :=
  (entityTag e, entityFieldTokens e)

theorem writeEntityList_chunks (es : List Entity) :
    writeEntityList es = .ok ((es.map (fun e => chunkTokens (entityChunk e))).flatten) := by
  induction es with
  | nil => rfl
  | cons e es ih =>
    rw [writeEntityList, writeEntity_ok, ih]
    rfl

/-- The chunk list one block definition is written as. -/
def blockChunks (b : Block) : List (String × List Token) :=
  ("BLOCK", [tsv 2 b.name, trv 10 b.basePoint.x, trv 20 b.basePoint.y]) ::
    b.entities.map entityChunk ++ [("ENDBLK", [])]

theorem writeBlockList_chunks (bs : List Block) :
    writeBlockList bs
      = .ok (((bs.map blockChunks).flatten.map chunkTokens).flatten) := by
  induction bs with
  | nil => rfl
  | cons b bs ih =>
    rw [writeBlockList, writeEntityList_chunks, ih]
    simp [blockTokens, blockChunks, chunkTokens, List.map_map, Function.comp_def, t0]

theorem entityFieldTokens_nonzero (e : Entity) :
    ∀ t ∈ entityFieldTokens e, (t.code == 0) = false := by
  cases e with
  | line l p1 p2 =>
    intro t ht
    simp [entityFieldTokens] at ht
    rcases ht with rfl | rfl | rfl | rfl | rfl <;> rfl
  | circle l c r =>
    intro t ht
    simp [entityFieldTokens] at ht
    rcases ht with rfl | rfl | rfl | rfl <;> rfl
  | arc l c r sa ea =>
    intro t ht
    simp [entityFieldTokens] at ht
    rcases ht with rfl | rfl | rfl | rfl | rfl | rfl <;> rfl
  | polyline l vs =>
    intro t ht
    simp [entityFieldTokens, List.mem_flatten] at ht
    rcases ht with rfl | rfl | ⟨p, _, rfl | rfl⟩ <;> rfl
  | text l p h rot s =>
    intro t ht
    simp [entityFieldTokens] at ht
    rcases ht with rfl | rfl | rfl | rfl | rfl | rfl <;> rfl
  | insert l b p sc rot =>
    intro t ht
    simp [entityFieldTokens] at ht
    rcases ht with rfl | rfl | rfl | rfl | rfl | rfl <;> rfl

theorem collectVerts_pairs (vs : List Pt) :
    collectVerts ((vs.map (fun p => [trv 10 p.x, trv 20 p.y])).flatten) = some vs := by
  induction vs with
  | nil => rfl
  | cons p ps ih =>
    simp only [trv] at ih ⊢
    simp [collectVerts, ih]

/-- Reading back the writer's serialization of one entity recovers the
entity, provided it satisfies the per-entity geometric invariants. -/
theorem parseEntityChunk_roundtrip (e : Entity) (h : entGeomOk e = true) :
    parseEntityChunk (entityTag e) (entityFieldTokens e) = .okE e := by
  cases e with
  | line l p1 p2 =>
    simp [entityTag, entityFieldTokens, parseEntityChunk, getFin, getStr, findVal,
      List.find?, tsv, trv]
  | circle l c r =>
    simp [entityTag, entityFieldTokens, parseEntityChunk, getFin, getStr, findVal,
      List.find?, tsv, trv]
  | arc l c r sa ea =>
    have hne : ¬sa = ea := by simpa [entGeomOk] using h
    simp [entityTag, entityFieldTokens, parseEntityChunk, getFin, getStr, findVal,
      List.find?, tsv, trv, hne]
  | polyline l vs =>
    have hne : ¬vs.isEmpty = true := by simpa [entGeomOk] using h
    cases vs with
    | nil => simp [List.isEmpty] at hne
    | cons v vs' =>
      have hcv := collectVerts_pairs (v :: vs')
      simp [entityTag, entityFieldTokens, parseEntityChunk, getStr, findVal,
        List.find?, tsv, tiv, trv, collectVerts] at hcv ⊢
      simp [hcv]
  | text l p hh rot s =>
    simp [entityTag, entityFieldTokens, parseEntityChunk, getFin, getStr, findVal,
      List.find?, tsv, trv]
  | insert l b p sc rot =>
    simp [entityTag, entityFieldTokens, parseEntityChunk, getFin, getStr, findVal,
      List.find?, tsv, trv]

theorem parseEntityChunks_map (es : List Entity) :
    ∀ idx, (∀ e ∈ es, entGeomOk e = true) →
      parseEntityChunks idx (es.map entityChunk) = (es, []) := by
  induction es with
  | nil => intro idx _; rfl
  | cons e es ih =>
    intro idx h
    have he := parseEntityChunk_roundtrip e (h e (List.mem_cons_self e es))
    have ihe := ih (idx + 1) (fun e' h' => h e' (List.mem_cons_of_mem _ h'))
    simp only [List.map_cons, entityChunk, parseEntityChunks]
    rw [ihe, he]

theorem parseLayerChunk_roundtrip (l : Layer) :
    parseLayerChunk (layerChunk l).2 = some l := by
  cases l with
  | mk n ci vis lt =>
    cases vis <;>
      simp [layerChunk, parseLayerChunk, getStr, getInt, findVal, List.find?, tsv, tiv]

theorem tablesChunks_fields_nonzero (ls : List Layer) :
    ∀ c ∈ tablesChunks ls, ∀ t ∈ c.2, (t.code == 0) = false := by
  intro c hc t ht
  simp [tablesChunks] at hc
  rcases hc with rfl | ⟨l, _, rfl⟩ | rfl
  · simp [tsv] at ht
    subst ht
    rfl
  · simp [layerChunk, tsv, tiv] at ht
    rcases ht with rfl | rfl | rfl | rfl <;> rfl
  · simp at ht

theorem parseLayersSection_roundtrip (ls : List Layer) :
    parseLayersSection (tablesBody ls) = ls := by
  rw [parseLayersSection, tablesBody_chunks,
    chunkAtZero_chunks _ (tablesChunks_fields_nonzero ls)]
  simp only [tablesChunks, List.filterMap_cons, List.filterMap_append]
  have h1 : (("TABLE" : String) = "LAYER") = False := by simp
  have h2 : (("ENDTAB" : String) = "LAYER") = False := by simp
  simp only [h1, if_false]
  have hmain : List.filterMap
      (fun p => if p.1 = "LAYER" then parseLayerChunk p.2 else none)
      (ls.map layerChunk) = ls := by
    induction ls with
    | nil => rfl
    | cons l ls ih =>
      have hr := parseLayerChunk_roundtrip l
      simp only [layerChunk] at hr
      simp only [List.map_cons, List.filterMap_cons, layerChunk]
      simp [hr, ih]
  simp [hmain, h2]

theorem entityTag_ne_block (e : Entity) : (entityTag e = "BLOCK") = False := by
  cases e <;> simp [entityTag]

theorem entityTag_ne_endblk (e : Entity) : (entityTag e = "ENDBLK") = False := by
  cases e <;> simp [entityTag]

theorem blockStep_fold_entities (es : List Entity) :
    ∀ (n : String) (bp : Pt) (es0 : List Entity) (doneRev : List Block)
      (warnsRev : List Warning),
      (∀ e ∈ es, entGeomOk e = true) →
      List.foldl blockStep ⟨some (n, bp, es0), doneRev, warnsRev⟩ (es.map entityChunk)
        = ⟨some (n, bp, es0 ++ es), doneRev, warnsRev⟩ := by
  induction es with
  | nil => intro n bp es0 doneRev warnsRev _; simp
  | cons e es ih =>
    intro n bp es0 doneRev warnsRev h
    have he := parseEntityChunk_roundtrip e (h e (List.mem_cons_self e es))
    have ihe := ih n bp (es0 ++ [e]) doneRev warnsRev
      (fun e' h' => h e' (List.mem_cons_of_mem _ h'))
    simp only [List.map_cons, List.foldl_cons]
    rw [show blockStep ⟨some (n, bp, es0), doneRev, warnsRev⟩ (entityChunk e)
        = ⟨some (n, bp, es0 ++ [e]), doneRev, warnsRev⟩ from by
      simp [blockStep, entityChunk, entityTag_ne_block e, entityTag_ne_endblk e, he]]
    rw [ihe]
    simp

theorem blocksChunks_fold (bs : List Block) :
    ∀ (doneRev : List Block) (warnsRev : List Warning),
      (∀ b ∈ bs, ∀ e ∈ b.entities, entGeomOk e = true) →
      List.foldl blockStep ⟨none, doneRev, warnsRev⟩ ((bs.map blockChunks).flatten)
        = ⟨none, bs.reverse ++ doneRev, warnsRev⟩ := by
  induction bs with
  | nil => intro doneRev warnsRev _; simp
  | cons b bs ih =>
    intro doneRev warnsRev h
    have hb := h b (List.mem_cons_self b bs)
    have ihe := ih (b :: doneRev) warnsRev
      (fun b' h' => h b' (List.mem_cons_of_mem _ h'))
    simp only [List.map_cons, List.flatten_cons, blockChunks, List.cons_append,
      List.append_assoc, List.singleton_append, List.foldl_cons]
    rw [show blockStep ⟨none, doneRev, warnsRev⟩
        ("BLOCK", [tsv 2 b.name, trv 10 b.basePoint.x, trv 20 b.basePoint.y])
        = ⟨some (b.name, b.basePoint, []), doneRev, warnsRev⟩ from by
      simp [blockStep, getStr, getFin, findVal, List.find?, tsv, trv]]
    rw [List.foldl_append, blockStep_fold_entities b.entities b.name b.basePoint []
      doneRev warnsRev hb]
    simp only [List.nil_append, List.foldl_cons]
    rw [show blockStep ⟨some (b.name, b.basePoint, b.entities), doneRev, warnsRev⟩
        ("ENDBLK", []) = ⟨none, ⟨b.name, b.basePoint, b.entities⟩ :: doneRev, warnsRev⟩
      from by simp [blockStep]]
    rw [ihe]
    simp

theorem parseBlocksSection_roundtrip (bs : List Block)
    (h : ∀ b ∈ bs, ∀ e ∈ b.entities, entGeomOk e = true) :
    parseBlocksSection (((bs.map blockChunks).flatten.map chunkTokens).flatten)
      = (bs, []) := by
  have hz : ∀ c ∈ (bs.map blockChunks).flatten, ∀ t ∈ c.2, (t.code == 0) = false := by
    intro c hc t ht
    simp only [List.mem_flatten, List.mem_map] at hc
    obtain ⟨cl, ⟨b, _, rfl⟩, hcl⟩ := hc
    simp only [blockChunks, List.mem_cons, List.mem_append, List.mem_map] at hcl
    rcases hcl with (rfl | ⟨e, _, rfl⟩) | (rfl | hfalse)
    · simp [tsv, trv] at ht
      rcases ht with rfl | rfl | rfl <;> rfl
    · exact entityFieldTokens_nonzero e t ht
    · simp at ht
    · simp at hfalse
  rw [parseBlocksSection, chunkAtZero_chunks _ hz, blocksChunks_fold bs [] [] h]
  simp

theorem resolveEntities_noop (lns bns : List String) (es : List Entity) :
    ∀ idx, (∀ e ∈ es, entRefOk lns bns e = true) →
      resolveEntities lns bns idx es = (es, []) := by
  induction es with
  | nil => intro idx _; rfl
  | cons e es ih =>
    intro idx h
    have he := h e (List.mem_cons_self e es)
    have ihe := ih (idx + 1) (fun e' h' => h e' (List.mem_cons_of_mem _ h'))
    cases e with
    | insert l b p sc rot =>
      simp only [entRefOk, Bool.and_eq_true] at he
      have he1 : l ∈ lns := by simpa using he.1
      have he2 : b ∈ bns := by simpa using he.2
      simp [resolveEntities, entLayer, he1, he2, ihe]
    | line l p1 p2 =>
      have he1 : l ∈ lns := by simpa [entRefOk, entLayer] using he
      simp [resolveEntities, entLayer, he1, ihe]
    | circle l c r =>
      have he1 : l ∈ lns := by simpa [entRefOk, entLayer] using he
      simp [resolveEntities, entLayer, he1, ihe]
    | arc l c r sa ea =>
      have he1 : l ∈ lns := by simpa [entRefOk, entLayer] using he
      simp [resolveEntities, entLayer, he1, ihe]
    | polyline l vs =>
      have he1 : l ∈ lns := by simpa [entRefOk, entLayer] using he
      simp [resolveEntities, entLayer, he1, ihe]
    | text l p hh rot s =>
      have he1 : l ∈ lns := by simpa [entRefOk, entLayer] using he
      simp [resolveEntities, entLayer, he1, ihe]

theorem resolveBlocks_noop (lns bns : List String) (bs : List Block)
    (h : ∀ b ∈ bs, ∀ e ∈ b.entities, entRefOk lns bns e = true) :
    resolveBlocks lns bns bs = (bs, []) := by
  induction bs with
  | nil => rfl
  | cons b bs ih =>
    have hb := resolveEntities_noop lns bns b.entities 0 (h b (List.mem_cons_self b bs))
    have ihe := ih (fun b' h' => h b' (List.mem_cons_of_mem _ h'))
    simp [resolveBlocks, hb, ihe]

theorem contains_cons_of_contains (a x : String) (l : List String)
    (h : l.contains x = true) : (a :: l).contains x = true := by
  have hx : x ∈ l := by simpa using h
  simp [List.contains_cons, hx]

theorem entRefOk_widen (lns bns : List String) (a : String) (e : Entity)
    (h : entRefOk lns bns e = true) : entRefOk (a :: lns) bns e = true := by
  cases e with
  | insert l b p sc rot =>
    simp only [entRefOk, Bool.and_eq_true] at h ⊢
    exact ⟨contains_cons_of_contains a _ _ h.1, h.2⟩
  | line l p1 p2 => exact contains_cons_of_contains a _ _ h
  | circle l c r => exact contains_cons_of_contains a _ _ h
  | arc l c r sa ea => exact contains_cons_of_contains a _ _ h
  | polyline l vs => exact contains_cons_of_contains a _ _ h
  | text l p hh rot s => exact contains_cons_of_contains a _ _ h

theorem entLayer_contained (lns bns : List String) (e : Entity)
    (h : entRefOk lns bns e = true) : lns.contains (entLayer e) = true := by
  cases e with
  | insert l b p sc rot =>
    simp only [entRefOk, Bool.and_eq_true] at h
    exact h.1
  | line l p1 p2 => exact h
  | circle l c r => exact h
  | arc l c r sa ea => exact h
  | polyline l vs => exact h
  | text l p hh rot s => exact h

theorem ensureLayer0_noop (ls : List Layer) (es : List Entity) (bs : List Block)
    (hes : ∀ e ∈ es, (ls.map Layer.name).contains (entLayer e) = true)
    (hbs : ∀ b ∈ bs, ∀ e ∈ b.entities,
      (ls.map Layer.name).contains (entLayer e) = true) :
    ensureLayer0 ls es bs = ls := by
  unfold ensureLayer0
  cases h0 : ls.any (fun l => l.name == "0") with
  | true => simp [h0]
  | false =>
    have hname : ∀ e : Entity, (ls.map Layer.name).contains (entLayer e) = true →
        (entLayer e == "0") = false := by
      intro e hc
      cases hx : entLayer e == "0" with
      | false => rfl
      | true =>
        have : entLayer e = "0" := by simpa using hx
        rw [this] at hc
        have hc' : "0" ∈ ls.map Layer.name := by simpa using hc
        simp only [List.mem_map] at hc'
        obtain ⟨l, hl, hl0⟩ := hc'
        have : ls.any (fun l => l.name == "0") = true := by
          simp only [List.any_eq_true]
          exact ⟨l, hl, by simp [hl0]⟩
        rw [this] at h0
        cases h0
    have h1 : es.any (fun e => entLayer e == "0") = false := by
      cases hx : es.any (fun e => entLayer e == "0") with
      | false => rfl
      | true =>
        simp only [List.any_eq_true] at hx
        obtain ⟨e, he, he0⟩ := hx
        rw [hname e (hes e he)] at he0
        cases he0
    have h2 : bs.any (fun b => b.entities.any (fun e => entLayer e == "0")) = false := by
      cases hx : bs.any (fun b => b.entities.any (fun e => entLayer e == "0")) with
      | false => rfl
      | true =>
        simp only [List.any_eq_true] at hx
        obtain ⟨b, hb, e, he, he0⟩ := hx
        rw [hname e (hbs b hb e he)] at he0
        cases he0
    simp [h0, h1, h2]

/-! ## Geometric closeness (spec §8: tolerance 1e-9 on coordinates and
angles) -/

def qClose (tol a b : ℚ) : Prop := |a - b| ≤ tol

def ptClose (tol : ℚ) (p q : Pt) : Prop :=
  qClose tol p.x q.x ∧ qClose tol p.y q.y

/-- Two entities are geometrically equal within tolerance: same
variant, same layer and names, coordinates and angles within `tol`. -/
def entClose (tol : ℚ) : Entity → Entity → Prop
  | .line l1 a1 b1, .line l2 a2 b2 =>
    l1 = l2 ∧ ptClose tol a1 a2 ∧ ptClose tol b1 b2
  | .circle l1 c1 r1, .circle l2 c2 r2 =>
    l1 = l2 ∧ ptClose tol c1 c2 ∧ qClose tol r1 r2
  | .arc l1 c1 r1 s1 e1, .arc l2 c2 r2 s2 e2 =>
    l1 = l2 ∧ ptClose tol c1 c2 ∧ qClose tol r1 r2 ∧ qClose tol s1 s2 ∧ qClose tol e1 e2
  | .polyline l1 v1, .polyline l2 v2 =>
    l1 = l2 ∧ v1.length = v2.length ∧ ∀ p ∈ v1.zip v2, ptClose tol p.1 p.2
  | .text l1 p1 h1 r1 s1, .text l2 p2 h2 r2 s2 =>
    l1 = l2 ∧ ptClose tol p1 p2 ∧ qClose tol h1 h2 ∧ qClose tol r1 r2 ∧ s1 = s2
  | .insert l1 b1 p1 sc1 r1, .insert l2 b2 p2 sc2 r2 =>
    l1 = l2 ∧ b1 = b2 ∧ ptClose tol p1 p2 ∧ qClose tol sc1 sc2 ∧ qClose tol r1 r2
  | _, _ => False

def entsClose (tol : ℚ) (l1 l2 : List Entity) : Prop :=
  l1.length = l2.length ∧ ∀ p ∈ l1.zip l2, entClose tol p.1 p.2

def blockClose (tol : ℚ) (b1 b2 : Block) : Prop :=
  b1.name = b2.name ∧ ptClose tol b1.basePoint b2.basePoint
    ∧ entsClose tol b1.entities b2.entities

/-- Two Drawings are geometrically equal within tolerance. -/
def drawingClose (tol : ℚ) (d1 d2 : Drawing) : Prop :=
  d1.layers = d2.layers ∧ d1.blocks.length = d2.blocks.length
    ∧ (∀ p ∈ d1.blocks.zip d2.blocks, blockClose tol p.1 p.2)
    ∧ entsClose tol d1.entities d2.entities

theorem zip_self_eq {α : Type} (l : List α) : ∀ p ∈ l.zip l, p.1 = p.2 := by
  induction l with
  | nil => intro p hp; cases hp
  | cons a l ih =>
    intro p hp
    rcases List.mem_cons.mp hp with rfl | hp2
    · rfl
    · exact ih p hp2

theorem qClose_refl (tol a : ℚ) (h : 0 ≤ tol) : qClose tol a a := by
  simp [qClose, h]

theorem ptClose_refl (tol : ℚ) (p : Pt) (h : 0 ≤ tol) : ptClose tol p p :=
  ⟨qClose_refl tol _ h, qClose_refl tol _ h⟩

theorem entClose_refl (tol : ℚ) (e : Entity) (h : 0 ≤ tol) : entClose tol e e := by
  cases e with
  | line l a b => exact ⟨rfl, ptClose_refl tol _ h, ptClose_refl tol _ h⟩
  | circle l c r => exact ⟨rfl, ptClose_refl tol _ h, qClose_refl tol _ h⟩
  | arc l c r sa ea =>
    exact ⟨rfl, ptClose_refl tol _ h, qClose_refl tol _ h, qClose_refl tol _ h,
      qClose_refl tol _ h⟩
  | polyline l vs =>
    refine ⟨rfl, rfl, ?_⟩
    intro p hp
    rw [zip_self_eq vs p hp]
    exact ptClose_refl tol _ h
  | text l p hh rot s =>
    exact ⟨rfl, ptClose_refl tol _ h, qClose_refl tol _ h, qClose_refl tol _ h, rfl⟩
  | insert l b p sc rot =>
    exact ⟨rfl, rfl, ptClose_refl tol _ h, qClose_refl tol _ h, qClose_refl tol _ h⟩

theorem entsClose_refl (tol : ℚ) (es : List Entity) (h : 0 ≤ tol) :
    entsClose tol es es := by
  refine ⟨rfl, ?_⟩
  intro p hp
  rw [zip_self_eq es p hp]
  exact entClose_refl tol _ h

theorem drawingClose_refl (tol : ℚ) (d : Drawing) (h : 0 ≤ tol) :
    drawingClose tol d d := by
  refine ⟨rfl, rfl, ?_, entsClose_refl tol _ h⟩
  intro p hp
  rw [zip_self_eq d.blocks p hp]
  exact ⟨rfl, ptClose_refl tol _ h, entsClose_refl tol _ h⟩

theorem noEndsec_chunks (cs : List (String × List Token))
    (h1 : ∀ c ∈ cs, c.1 ≠ "ENDSEC")
    (h2 : ∀ c ∈ cs, ∀ t ∈ c.2, (t.code == 0) = false) :
    ∀ t ∈ (cs.map chunkTokens).flatten, isMarker t "ENDSEC" = false := by
  intro t ht
  simp only [List.mem_flatten, List.mem_map] at ht
  obtain ⟨l, ⟨c, hc, rfl⟩, htl⟩ := ht
  rcases List.mem_cons.mp htl with rfl | htl2
  · simp [isMarker, h1 c hc]
  · refine isMarker_code_ne _ _ ?_
    have := h2 c hc t htl2
    simpa using this

theorem entityTag_ne_endsec (e : Entity) : entityTag e ≠ "ENDSEC" := by
  cases e <;> simp [entityTag]

theorem writer_reader_exact (d : Drawing) (h : drawingOk d = true) :
    ∃ ts, writeDrawing d = .ok ts ∧ readDrawing ts = .ok (d, []) := by
  simp only [drawingOk, Bool.and_eq_true, List.all_eq_true, Bool.not_eq_true'] at h
  obtain ⟨⟨⟨hdl, hdb⟩, hgeom⟩, href⟩ := h
  have hgeomE : ∀ e ∈ d.entities, entGeomOk e = true :=
    fun e he => hgeom e (List.mem_append_left _ he)
  have hgeomB : ∀ b ∈ d.blocks, ∀ e ∈ b.entities, entGeomOk e = true := by
    intro b hb e he
    refine hgeom e (List.mem_append_right _ ?_)
    exact List.mem_flatten.mpr ⟨b.entities, List.mem_map_of_mem _ hb, he⟩
  have hrefE : ∀ e ∈ d.entities, entRefOk (layerNames d) (blockNames d) e = true :=
    fun e he => href e (List.mem_append_left _ he)
  have hrefB : ∀ b ∈ d.blocks, ∀ e ∈ b.entities,
      entRefOk (layerNames d) (blockNames d) e = true := by
    intro b hb e he
    refine href e (List.mem_append_right _ ?_)
    exact List.mem_flatten.mpr ⟨b.entities, List.mem_map_of_mem _ hb, he⟩
  set blkBody := ((d.blocks.map blockChunks).flatten.map chunkTokens).flatten with hblk
  set entBody := (d.entities.map (fun e => chunkTokens (entityChunk e))).flatten with hent
  have hw : writeDrawing d = .ok (sectionTokens "HEADER" headerBody
      ++ sectionTokens "TABLES" (tablesBody d.layers)
      ++ sectionTokens "BLOCKS" blkBody
      ++ sectionTokens "ENTITIES" entBody ++ [t0 "EOF"]) := by
    simp only [writeDrawing, writeBlockList_chunks, writeEntityList_chunks]
  have hnoH : ∀ t ∈ headerBody, isMarker t "ENDSEC" = false := by
    intro t ht
    simp [headerBody, tsv] at ht
    rcases ht with rfl | rfl <;> rfl
  have hnoT : ∀ t ∈ tablesBody d.layers, isMarker t "ENDSEC" = false := by
    rw [tablesBody_chunks]
    refine noEndsec_chunks _ ?_ (tablesChunks_fields_nonzero d.layers)
    intro c hc
    simp only [tablesChunks, List.mem_cons, List.mem_append, List.mem_map] at hc
    rcases hc with (rfl | ⟨l, _, rfl⟩) | (rfl | hf)
    · simp
    · simp [layerChunk]
    · simp
    · simp at hf
  have hzB : ∀ c ∈ (d.blocks.map blockChunks).flatten, ∀ t ∈ c.2,
      (t.code == 0) = false := by
    intro c hc t ht
    simp only [List.mem_flatten, List.mem_map] at hc
    obtain ⟨cl, ⟨b, _, rfl⟩, hcl⟩ := hc
    simp only [blockChunks, List.mem_cons, List.mem_append, List.mem_map] at hcl
    rcases hcl with (rfl | ⟨e, _, rfl⟩) | (rfl | hfalse)
    · simp [tsv, trv] at ht
      rcases ht with rfl | rfl | rfl <;> rfl
    · exact entityFieldTokens_nonzero e t ht
    · simp at ht
    · simp at hfalse
  have hnoB : ∀ t ∈ blkBody, isMarker t "ENDSEC" = false := by
    refine noEndsec_chunks _ ?_ hzB
    intro c hc
    simp only [List.mem_flatten, List.mem_map] at hc
    obtain ⟨cl, ⟨b, _, rfl⟩, hcl⟩ := hc
    simp only [blockChunks, List.mem_cons, List.mem_append, List.mem_map] at hcl
    rcases hcl with (rfl | ⟨e, _, rfl⟩) | (rfl | hfalse)
    · simp
    · exact entityTag_ne_endsec e
    · simp
    · simp at hfalse
  have hentEq : entBody = ((d.entities.map entityChunk).map chunkTokens).flatten := by
    rw [hent, List.map_map]
    rfl
  have hnoE : ∀ t ∈ entBody, isMarker t "ENDSEC" = false := by
    rw [hentEq]
    refine noEndsec_chunks _ ?_ ?_
    · intro c hc
      simp only [List.mem_map] at hc
      obtain ⟨e, _, rfl⟩ := hc
      exact entityTag_ne_endsec e
    · intro c hc
      simp only [List.mem_map] at hc
      obtain ⟨e, _, rfl⟩ := hc
      exact entityFieldTokens_nonzero e
  have hsplit := splitSections_writer headerBody (tablesBody d.layers) blkBody entBody
    hnoH hnoT hnoB hnoE
  have hl : parseLayersSection (tablesBody d.layers) = d.layers :=
    parseLayersSection_roundtrip d.layers
  have hbp : parseBlocksSection blkBody = (d.blocks, []) :=
    parseBlocksSection_roundtrip d.blocks hgeomB
  have hep : parseEntitiesSection entBody = (d.entities, []) := by
    rw [parseEntitiesSection, hentEq,
      chunkAtZero_chunks _ (fun c hc => by
        simp only [List.mem_map] at hc
        obtain ⟨e, _, rfl⟩ := hc
        exact entityFieldTokens_nonzero e)]
    exact parseEntityChunks_map d.entities 0 hgeomE
  have hrefE' : ∀ lns, (∀ x, (layerNames d).contains x = true → lns.contains x = true) →
      (∀ e ∈ d.entities, entRefOk lns (blockNames d) e = true) →
      resolveEntities lns (blockNames d) 0 d.entities = (d.entities, []) :=
    fun lns _ hr => resolveEntities_noop lns (blockNames d) d.entities 0 hr
  refine ⟨_, hw, ?_⟩
  simp only [readDrawing, hsplit]
  have hsT : sectionBody "TABLES"
      [("HEADER", headerBody), ("TABLES", tablesBody d.layers),
        ("BLOCKS", blkBody), ("ENTITIES", entBody)] = tablesBody d.layers := rfl
  have hsB : sectionBody "BLOCKS"
      [("HEADER", headerBody), ("TABLES", tablesBody d.layers),
        ("BLOCKS", blkBody), ("ENTITIES", entBody)] = blkBody := rfl
  have hsE : sectionBody "ENTITIES"
      [("HEADER", headerBody), ("TABLES", tablesBody d.layers),
        ("BLOCKS", blkBody), ("ENTITIES", entBody)] = entBody := rfl
  rw [hsT, hsB, hsE]
  have hens := ensureLayer0_noop d.layers d.entities d.blocks
    (fun e he => entLayer_contained _ _ e (hrefE e he))
    (fun b hb e he => entLayer_contained _ _ e (hrefB b hb e he))
  cases hc0 : (d.layers.map Layer.name).contains "0" with
  | true =>
    have h1 := resolveBlocks_noop (layerNames d) (blockNames d) d.blocks hrefB
    have h2 := resolveEntities_noop (layerNames d) (blockNames d) d.entities 0 hrefE
    simp only [layerNames, blockNames] at h1 h2
    have hc0p : ∃ a ∈ d.layers, a.name = "0" := by simpa using hc0
    simp [hl, hbp, hep, hc0p, h1, h2, hens]
  | false =>
    have hrefE2 : ∀ e ∈ d.entities,
        entRefOk ("0" :: layerNames d) (blockNames d) e = true :=
      fun e he => entRefOk_widen _ _ _ _ (hrefE e he)
    have hrefB2 : ∀ b ∈ d.blocks, ∀ e ∈ b.entities,
        entRefOk ("0" :: layerNames d) (blockNames d) e = true :=
      fun b hb e he => entRefOk_widen _ _ _ _ (hrefB b hb e he)
    have h1 := resolveBlocks_noop ("0" :: layerNames d) (blockNames d) d.blocks hrefB2
    have h2 := resolveEntities_noop ("0" :: layerNames d) (blockNames d) d.entities 0 hrefE2
    simp only [layerNames, blockNames] at h1 h2
    have hc0p : ¬∃ a ∈ d.layers, a.name = "0" := by
      intro hx
      obtain ⟨a, ha, ha0⟩ := hx
      have hmem : "0" ∈ d.layers.map Layer.name := List.mem_map.mpr ⟨a, ha, ha0⟩
      have hcc : (d.layers.map Layer.name).contains "0" = true := by simpa using hmem
      rw [hcc] at hc0
      cases hc0
    simp [hl, hbp, hep, hc0p, h1, h2, hens]

/-- C2: for every Drawing constructible under the §3 model invariants,
reading back the writer's output — `readDrawing (writeDrawing d)` —
yields a Drawing geometrically equal to `d` within a tolerance of
`1e-9` on coordinates and angles.  In this model numeric values are
carried exactly through the token stream, so the read-back Drawing is
in fact exactly `d` (hence within any nonnegative tolerance) and no
field is lost. -/
theorem dxf_roundtrip_within_tolerance (d : Drawing) (h : drawingOk d = true) :
    ∃ ts d' w, writeDrawing d = .ok ts ∧ readDrawing ts = .ok (d', w)
      ∧ drawingClose (1 / 10 ^ 9) d d' ∧ d' = d ∧ w = [] := by
  obtain ⟨ts, hw, hr⟩ := writer_reader_exact d h
  exact ⟨ts, d, [], hw, hr, drawingClose_refl _ d (by norm_num), rfl, rfl⟩

/-- A sample drawing exercising every entity variant, a block and two
layers. -/
def sampleDrawing : Drawing :=
  ⟨[⟨"L1", 3, true, "DASHED"⟩, ⟨"0", 7, true, "CONTINUOUS"⟩],
   [⟨"B1", ⟨1, 2⟩, [.line "L1" ⟨0, 0⟩ ⟨1, 1⟩]⟩],
   [.line "L1" ⟨0, 0⟩ ⟨5, 0⟩, .circle "0" ⟨1, 1⟩ 2,
    .arc "0" ⟨0, 0⟩ 1 0 90, .polyline "L1" [⟨0, 0⟩, ⟨1, 0⟩, ⟨1, 1⟩],
    .text "0" ⟨2, 3⟩ 3 45 "hello", .insert "0" "B1" ⟨4, 4⟩ 1 0]⟩

/-- Witness for C2 at a concrete drawing. -/
theorem dxf_roundtrip_within_tolerance_witness :
    drawingOk sampleDrawing = true ∧
      ∃ ts d' w, writeDrawing sampleDrawing = .ok ts ∧ readDrawing ts = .ok (d', w)
        ∧ drawingClose (1 / 10 ^ 9) sampleDrawing d' ∧ d' = sampleDrawing ∧ w = [] :=
  ⟨by decide, dxf_roundtrip_within_tolerance sampleDrawing (by decide)⟩

theorem splitSections_single (name : String) (body : List Token)
    (hb : ∀ t ∈ body, isMarker t "ENDSEC" = false) :
    splitSections (sectionTokens name body ++ [t0 "EOF"]) = .ok [(name, body)] := by
  unfold splitSections
  rw [List.foldl_append, foldl_section name body [] hb]
  simp [splitStep, isMarker_t0]

theorem lineFields_nonzero (L : String) (x1 y1 x2 y2 : ℚ) :
    ∀ t ∈ [tsv 8 L, trv 10 x1, trv 20 y1, trv 11 x2, trv 21 y2],
      (t.code == 0) = false := by
  intro t ht
  simp [tsv, trv] at ht
  rcases ht with rfl | rfl | rfl | rfl | rfl <;> rfl

theorem parseEntityChunk_line (L : String) (x1 y1 x2 y2 : ℚ) :
    parseEntityChunk "LINE" [tsv 8 L, trv 10 x1, trv 20 y1, trv 11 x2, trv 21 y2]
      = .okE (.line L ⟨x1, y1⟩ ⟨x2, y2⟩) := by
  have h := parseEntityChunk_roundtrip (.line L ⟨x1, y1⟩ ⟨x2, y2⟩) rfl
  simpa [entityTag, entityFieldTokens] using h

/-- C5: an imported entity referencing a layer name not defined in the
input never aborts the import: during resolution it is reassigned to
the default layer "0" and a warning naming the missing layer is
recorded first in the warning sequence (conjunct 1); in particular a
Line on an undefined layer `L` with endpoints `(x1,y1)-(x2,y2)` imports
as that Line on layer "0" plus exactly one warning referencing `L`
(conjunct 2, the spec's `MyLayer` example being the witness). -/
theorem dangling_layer_fallback :
    (∀ (lns bns : List String) (idx : Nat) (e : Entity) (es : List Entity),
      lns.contains (entLayer e) = false →
      (∀ l b p sc rot, e = Entity.insert l b p sc rot → bns.contains b = true) →
      resolveEntities lns bns idx (e :: es)
        = (setLayer "0" e :: (resolveEntities lns bns (idx + 1) es).1,
            ⟨entLayer e, idx, "undefined layer, entity reassigned to layer 0"⟩
              :: (resolveEntities lns bns (idx + 1) es).2))
    ∧ (∀ (L : String) (x1 y1 x2 y2 : ℚ), L ≠ "0" →
      readDrawing (sectionTokens "ENTITIES"
          [⟨0, .str "LINE"⟩, tsv 8 L, trv 10 x1, trv 20 y1, trv 11 x2, trv 21 y2]
          ++ [t0 "EOF"])
        = .ok (⟨[defaultLayer0], [], [.line "0" ⟨x1, y1⟩ ⟨x2, y2⟩]⟩,
            [⟨L, 0, "undefined layer, entity reassigned to layer 0"⟩])) := by
  constructor
  · intro lns bns idx e es h hkeep
    cases e with
    | insert l b p sc rot =>
      have hb := hkeep l b p sc rot rfl
      have hb' : b ∈ bns := by simpa using hb
      have hl' : ¬l ∈ lns := by simpa [entLayer] using h
      simp [resolveEntities, entLayer, setLayer, hl', hb']
    | line l p1 p2 =>
      have hl' : ¬l ∈ lns := by simpa [entLayer] using h
      simp [resolveEntities, entLayer, setLayer, hl']
    | circle l c r =>
      have hl' : ¬l ∈ lns := by simpa [entLayer] using h
      simp [resolveEntities, entLayer, setLayer, hl']
    | arc l c r sa ea =>
      have hl' : ¬l ∈ lns := by simpa [entLayer] using h
      simp [resolveEntities, entLayer, setLayer, hl']
    | polyline l vs =>
      have hl' : ¬l ∈ lns := by simpa [entLayer] using h
      simp [resolveEntities, entLayer, setLayer, hl']
    | text l p hh rot s =>
      have hl' : ¬l ∈ lns := by simpa [entLayer] using h
      simp [resolveEntities, entLayer, setLayer, hl']
  · intro L x1 y1 x2 y2 hL
    have hbody : ∀ t ∈ ([⟨0, .str "LINE"⟩, tsv 8 L, trv 10 x1, trv 20 y1,
        trv 11 x2, trv 21 y2] : List Token), isMarker t "ENDSEC" = false := by
      intro t ht
      simp [tsv, trv] at ht
      rcases ht with rfl | rfl | rfl | rfl | rfl | rfl <;> rfl
    have hsplit := splitSections_single "ENTITIES" _ hbody
    have hchunk : chunkAtZero [⟨0, .str "LINE"⟩, tsv 8 L, trv 10 x1, trv 20 y1,
        trv 11 x2, trv 21 y2]
        = [("LINE", [tsv 8 L, trv 10 x1, trv 20 y1, trv 11 x2, trv 21 y2])] := by
      have := chunkAtZero_chunks
        [("LINE", [tsv 8 L, trv 10 x1, trv 20 y1, trv 11 x2, trv 21 y2])]
        (by
          intro c hc t ht
          simp only [List.mem_singleton] at hc
          subst hc
          exact lineFields_nonzero L x1 y1 x2 y2 t ht)
      simpa [chunkTokens] using this
    have hpe : parseEntitiesSection [⟨0, .str "LINE"⟩, tsv 8 L, trv 10 x1, trv 20 y1,
        trv 11 x2, trv 21 y2] = ([.line L ⟨x1, y1⟩ ⟨x2, y2⟩], []) := by
      rw [parseEntitiesSection, hchunk]
      simp [parseEntityChunks, parseEntityChunk_line]
    simp only [readDrawing, hsplit]
    rw [show sectionBody "TABLES" [("ENTITIES", [⟨0, .str "LINE"⟩, tsv 8 L, trv 10 x1,
        trv 20 y1, trv 11 x2, trv 21 y2])] = [] from rfl]
    rw [show sectionBody "BLOCKS" [("ENTITIES", [⟨0, .str "LINE"⟩, tsv 8 L, trv 10 x1,
        trv 20 y1, trv 11 x2, trv 21 y2])] = [] from rfl]
    rw [show sectionBody "ENTITIES" [("ENTITIES", [⟨0, .str "LINE"⟩, tsv 8 L, trv 10 x1,
        trv 20 y1, trv 11 x2, trv 21 y2])]
        = [⟨0, .str "LINE"⟩, tsv 8 L, trv 10 x1, trv 20 y1, trv 11 x2, trv 21 y2]
      from rfl]
    rw [hpe]
    simp [parseLayersSection, parseBlocksSection, chunkAtZero, blockStep,
      resolveEntities, resolveBlocks, entLayer, setLayer, hL, ensureLayer0,
      defaultLayer0]

/-- Witness for C5: the spec's own example — a Line on undefined layer
"MyLayer" with endpoints (0,0)-(5,0). -/
theorem dangling_layer_fallback_witness :
    ("MyLayer" : String) ≠ "0" ∧
      readDrawing (sectionTokens "ENTITIES"
          [⟨0, .str "LINE"⟩, tsv 8 "MyLayer", trv 10 0, trv 20 0, trv 11 5, trv 21 0]
          ++ [t0 "EOF"])
        = .ok (⟨[defaultLayer0], [], [.line "0" ⟨0, 0⟩ ⟨5, 0⟩]⟩,
            [⟨"MyLayer", 0, "undefined layer, entity reassigned to layer 0"⟩]) :=
  ⟨by decide, dangling_layer_fallback.2 "MyLayer" 0 0 5 0 (by decide)⟩

/-- C4: a DXF ENTITIES section containing one recognized Line entity
and one entity of an unrecognized type (in either order, the
unrecognized chunk carrying arbitrary non-entity-marker fields) imports
successfully: the resulting Drawing contains exactly the Line entity
and exactly one skipped-entity warning is recorded. -/
theorem unknown_entity_tolerance (x1 y1 x2 y2 : ℚ) (u : String) (uf : List Token)
    (first : Bool)
    (hu : recognizedTags.contains u = false)
    (hendsec : u ≠ "ENDSEC")
    (huf : ∀ t ∈ uf, (t.code == 0) = false) :
    readDrawing (sectionTokens "ENTITIES"
        (if first then
          ([⟨0, .str "LINE"⟩, tsv 8 "0", trv 10 x1, trv 20 y1, trv 11 x2, trv 21 y2]
            ++ (⟨0, .str u⟩ :: uf))
        else
          ((⟨0, .str u⟩ :: uf)
            ++ [⟨0, .str "LINE"⟩, tsv 8 "0", trv 10 x1, trv 20 y1, trv 11 x2, trv 21 y2]))
        ++ [t0 "EOF"])
      = .ok (⟨[defaultLayer0], [], [.line "0" ⟨x1, y1⟩ ⟨x2, y2⟩]⟩,
          [⟨"", if first then 1 else 0, "unknown entity type: " ++ u⟩]) := by
  have hu' : ¬(u = "LINE" ∨ u = "CIRCLE" ∨ u = "ARC" ∨ u = "LWPOLYLINE"
      ∨ u = "TEXT" ∨ u = "INSERT") := by
    simpa [recognizedTags] using hu
  push_neg at hu'
  obtain ⟨h1, h2, h3, h4, h5, h6⟩ := hu'
  have hskip : parseEntityChunk u uf = .skipE ("unknown entity type: " ++ u) := by
    simp [parseEntityChunk, h1, h2, h3, h4, h5, h6]
  have hline := parseEntityChunk_line "0" x1 y1 x2 y2
  cases first with
  | true =>
    have hbody : ([⟨0, .str "LINE"⟩, tsv 8 "0", trv 10 x1, trv 20 y1, trv 11 x2,
        trv 21 y2] ++ (⟨0, .str u⟩ :: uf))
        = (([("LINE", [tsv 8 "0", trv 10 x1, trv 20 y1, trv 11 x2, trv 21 y2]),
            (u, uf)].map chunkTokens)).flatten := by
      simp [chunkTokens]
    have hz : ∀ c ∈ [("LINE", [tsv 8 "0", trv 10 x1, trv 20 y1, trv 11 x2, trv 21 y2]),
        (u, uf)], ∀ t ∈ c.2, (t.code == 0) = false := by
      intro c hc t ht
      rcases List.mem_cons.mp hc with rfl | hc2
      · exact lineFields_nonzero "0" x1 y1 x2 y2 t ht
      · rcases List.mem_cons.mp hc2 with rfl | hc3
        · exact huf t ht
        · cases hc3
    have hnos : ∀ t ∈ ([⟨0, .str "LINE"⟩, tsv 8 "0", trv 10 x1, trv 20 y1, trv 11 x2,
        trv 21 y2] ++ (⟨0, .str u⟩ :: uf)), isMarker t "ENDSEC" = false := by
      rw [hbody]
      refine noEndsec_chunks _ ?_ hz
      intro c hc
      rcases List.mem_cons.mp hc with rfl | hc2
      · simp
      · rcases List.mem_cons.mp hc2 with rfl | hc3
        · exact hendsec
        · cases hc3
    have hsplit := splitSections_single "ENTITIES" _ hnos
    have hchunk := chunkAtZero_chunks _ hz
    simp only [if_true, readDrawing, hsplit]
    rw [show sectionBody "TABLES" [("ENTITIES", [⟨0, .str "LINE"⟩, tsv 8 "0",
        trv 10 x1, trv 20 y1, trv 11 x2, trv 21 y2] ++ (⟨0, .str u⟩ :: uf))] = []
      from rfl]
    rw [show sectionBody "BLOCKS" [("ENTITIES", [⟨0, .str "LINE"⟩, tsv 8 "0",
        trv 10 x1, trv 20 y1, trv 11 x2, trv 21 y2] ++ (⟨0, .str u⟩ :: uf))] = []
      from rfl]
    rw [show sectionBody "ENTITIES" [("ENTITIES", [⟨0, .str "LINE"⟩, tsv 8 "0",
        trv 10 x1, trv 20 y1, trv 11 x2, trv 21 y2] ++ (⟨0, .str u⟩ :: uf))]
        = [⟨0, .str "LINE"⟩, tsv 8 "0", trv 10 x1, trv 20 y1, trv 11 x2, trv 21 y2]
          ++ (⟨0, .str u⟩ :: uf) from rfl]
    rw [show parseEntitiesSection ([⟨0, .str "LINE"⟩, tsv 8 "0", trv 10 x1, trv 20 y1,
        trv 11 x2, trv 21 y2] ++ (⟨0, .str u⟩ :: uf))
        = ([.line "0" ⟨x1, y1⟩ ⟨x2, y2⟩], [⟨"", 1, "unknown entity type: " ++ u⟩])
      from by
        rw [parseEntitiesSection, hbody, hchunk]
        simp [parseEntityChunks, hline, hskip]]
    simp [parseLayersSection, parseBlocksSection, chunkAtZero, blockStep,
      resolveEntities, resolveBlocks, entLayer, ensureLayer0, defaultLayer0]
  | false =>
    have hbody : ((⟨0, .str u⟩ :: uf) ++ [⟨0, .str "LINE"⟩, tsv 8 "0", trv 10 x1,
        trv 20 y1, trv 11 x2, trv 21 y2])
        = (([(u, uf),
            ("LINE", [tsv 8 "0", trv 10 x1, trv 20 y1, trv 11 x2, trv 21 y2])].map
              chunkTokens)).flatten := by
      simp [chunkTokens]
    have hz : ∀ c ∈ [(u, uf),
        ("LINE", [tsv 8 "0", trv 10 x1, trv 20 y1, trv 11 x2, trv 21 y2])],
        ∀ t ∈ c.2, (t.code == 0) = false := by
      intro c hc t ht
      rcases List.mem_cons.mp hc with rfl | hc2
      · exact huf t ht
      · rcases List.mem_cons.mp hc2 with rfl | hc3
        · exact lineFields_nonzero "0" x1 y1 x2 y2 t ht
        · cases hc3
    have hnos : ∀ t ∈ ((⟨0, .str u⟩ :: uf) ++ [⟨0, .str "LINE"⟩, tsv 8 "0", trv 10 x1,
        trv 20 y1, trv 11 x2, trv 21 y2]), isMarker t "ENDSEC" = false := by
      rw [hbody]
      refine noEndsec_chunks _ ?_ hz
      intro c hc
      rcases List.mem_cons.mp hc with rfl | hc2
      · exact hendsec
      · rcases List.mem_cons.mp hc2 with rfl | hc3
        · simp
        · cases hc3
    have hsplit := splitSections_single "ENTITIES" _ hnos
    have hchunk := chunkAtZero_chunks _ hz
    simp only [Bool.false_eq_true, if_false, readDrawing, hsplit]
    rw [show sectionBody "TABLES" [("ENTITIES", (⟨0, .str u⟩ :: uf) ++ [⟨0, .str "LINE"⟩,
        tsv 8 "0", trv 10 x1, trv 20 y1, trv 11 x2, trv 21 y2])] = [] from rfl]
    rw [show sectionBody "BLOCKS" [("ENTITIES", (⟨0, .str u⟩ :: uf) ++ [⟨0, .str "LINE"⟩,
        tsv 8 "0", trv 10 x1, trv 20 y1, trv 11 x2, trv 21 y2])] = [] from rfl]
    rw [show sectionBody "ENTITIES" [("ENTITIES", (⟨0, .str u⟩ :: uf) ++ [⟨0, .str "LINE"⟩,
        tsv 8 "0", trv 10 x1, trv 20 y1, trv 11 x2, trv 21 y2])]
        = (⟨0, .str u⟩ :: uf) ++ [⟨0, .str "LINE"⟩, tsv 8 "0", trv 10 x1, trv 20 y1,
          trv 11 x2, trv 21 y2] from rfl]
    rw [show parseEntitiesSection ((⟨0, .str u⟩ :: uf) ++ [⟨0, .str "LINE"⟩, tsv 8 "0",
        trv 10 x1, trv 20 y1, trv 11 x2, trv 21 y2])
        = ([.line "0" ⟨x1, y1⟩ ⟨x2, y2⟩], [⟨"", 0, "unknown entity type: " ++ u⟩])
      from by
        rw [parseEntitiesSection, hbody, hchunk]
        simp [parseEntityChunks, hline, hskip]]
    simp [parseLayersSection, parseBlocksSection, chunkAtZero, blockStep,
      resolveEntities, resolveBlocks, entLayer, ensureLayer0, defaultLayer0]

/-- Witness for C4 at a concrete input: a LINE plus an unrecognized
SPLINE entity. -/
theorem unknown_entity_tolerance_witness :
    recognizedTags.contains "SPLINE" = false ∧ ("SPLINE" : String) ≠ "ENDSEC" ∧
      readDrawing (sectionTokens "ENTITIES"
          ([⟨0, .str "LINE"⟩, tsv 8 "0", trv 10 0, trv 20 0, trv 11 5, trv 21 0]
            ++ (⟨0, .str "SPLINE"⟩ :: [⟨70, .int 8⟩]))
          ++ [t0 "EOF"])
        = .ok (⟨[defaultLayer0], [], [.line "0" ⟨0, 0⟩ ⟨5, 0⟩]⟩,
            [⟨"", 1, "unknown entity type: SPLINE"⟩]) := by
  refine ⟨by decide, by decide, ?_⟩
  have h := unknown_entity_tolerance 0 0 5 0 "SPLINE" [⟨70, .int 8⟩] true
    (by decide) (by decide)
    (by intro t ht; simp at ht; subst ht; rfl)
  simpa using h
